import Mathlib

/-!
# A rotating file logger (`package logger`, `src/logger.go`)

Shallow embedding of the Go logger and of the part of its environment the
code talks to.

* The file system is a map from path strings to nodes; a regular file is the
  list of records written to it, in write order.
* `*os.File` handles are the path they were opened at.  The source closes a
  handle before it renames or removes the file under it, and replaces the
  handle right after, so a handle always denotes the file at its path.
* `*log.Logger` (`lg`) is always built over the current `logf`
  (`log.New(io.MultiWriter(logf, os.Stderr), ...)` or `log.New(logf, ...)`,
  the only assignments the source has), so the writer records only whether
  standard error is fanned in.
* A Go panic is an `Option String` travelling with the state: the state keeps
  the effects made before the panic, as a deferred `recover` sees them.
* Pointers are `Option`s; a dereference of `nil` panics.
* `sync.RWMutex` is not represented as state: each operation is one critical
  section of the lock, and a concurrent run is the sequence of critical
  sections in the order the lock grants them (`runStepsOn`).  The goroutine
  started by `go this.fileMonitor()` is counted in `monitors` and its ticks
  are the operation `fileCheck`.
* The operations come twice.  `rename`, `fileCheck`, `SetRollFile` and the
  others are the logger on an operating system that accepts every call; a
  call then fails only for what the files are (a missing source, a
  directory in the way).  `renameOn`, `fileCheckOn`, `SetRollFileOn` and the
  others take the set of calls the system refuses (`Refusals`): a name that
  is too long, a missing parent directory, permissions, a full disk.  On
  `accepting` the second are the first (`renameOn_accepting` and its
  neighbours).
* `time.Now()` enters as the local calendar day number `Ctx.now` (days since
  1970-01-01); `time.Parse(DATEFORMAT, t.Format(DATEFORMAT))` is that day.
* `Xlogger/logger.go` is the same engine with renamed identifiers
  (`rotate`, `isMustRotate`, `catchPanic`) and `error` results on the
  setters; the definitions follow `logger.go`.
-/

namespace GoLogger


/-! ## Constants -/

/-- Go layout string `const DATEFORMAT`. -/
def DATEFORMAT : String := "2006-01-02"

/-- Version string `const VERSION`. -/
def VERSION : String := "1.0.0"

def ALL : Int := 0
def DEBUG : Int := 1
def INFO : Int := 2
def WARN : Int := 3
def ERROR : Int := 4
def FATAL : Int := 5
def OFF : Int := 6

def KB : Int := 2 ^ 10
def MB : Int := 2 ^ 20
def GB : Int := 2 ^ 30
def TB : Int := 2 ^ 40

/-- Rotation mode `_NULL`: no rotation configured. -/
def _NULL : Int := 0
/-- Rotation mode `_DATE`: rotate by calendar day. -/
def _DATE : Int := 1
/-- Rotation mode `_FILE`: rotate by file size. -/
def _FILE : Int := 2

/-! ## Machine integers and number rendering -/

/-- Two's complement reading of an integer as an `int64`. -/
def wrap64 (x : Int) : Int := (x + 2 ^ 63) % 2 ^ 64 - 2 ^ 63

/-- Go conversion `int(i)` of a `uint` (64 bit). -/
def intOfUint (i : Nat) : Int := wrap64 (i : Int)

/-- Go `strconv.Itoa`: decimal rendering with a leading minus sign. -/
def Itoa : Int → String
  | Int.ofNat m => Nat.repr m
  | Int.negSucc m => "-" ++ Nat.repr (m + 1)

/-! ## Calendar days -/

/-- Civil date (year, month, day) of a day number counted from 1970-01-01. -/
def civilFromDays (z0 : Int) : Int × Int × Int :=
  let z := z0 + 719468
  let era := z / 146097
  let doe := z - era * 146097
  let yoe := (doe - doe / 1460 + doe / 36524 - doe / 146096) / 365
  let y := yoe + era * 400
  let doy := doe - (365 * yoe + yoe / 4 - yoe / 100)
  let mp := (5 * doy + 2) / 153
  let d := doy - (153 * mp + 2) / 5 + 1
  let m := if mp < 10 then mp + 3 else mp - 9
  (if m ≤ 2 then y + 1 else y, m, d)

/-- Zero padding of a non-negative number to at least `w` digits. -/
def padNum (w : Nat) (n : Int) : String :=
  let t := Itoa n
  String.mk (List.replicate (w - t.length) '0') ++ t

/-- Go `t.Format(DATEFORMAT)` for a day number: `YYYY-MM-DD`. -/
def formatDate (day : Int) : String :=
  let c := civilFromDays day
  padNum 4 c.1 ++ "-" ++ padNum 2 c.2.1 ++ "-" ++ padNum 2 c.2.2

/-! ## File system -/

/-- A directory entry: a regular file with its records, or a directory. -/
inductive Node where
  | file (data : List String)
  | dir
  deriving DecidableEq, Repr

/-- The file system: what `os.Stat` finds at each path. -/
abbrev FS := String → Option Node

/-- The empty file system. -/
def FS.empty : FS := fun _ => none

/-- Replace the entry at one path. -/
def FS.set (fs : FS) (p : String) (v : Option Node) : FS :=
  fun q => if q = p then v else fs q

/-- Size in bytes of a list of records. -/
def byteSize (data : List String) : Int :=
  ((data.map String.utf8ByteSize).sum : Nat)

/-- Size `os.Stat` reports for a directory (system dependent). -/
def dirStatSize : Int := 4096

/-- Source `isExist`: `os.Stat` succeeds on the path. -/
def isExist (fs : FS) (path : String) : Bool := (fs path).isSome

/-- Source `getFileSize`: the size of the file, 0 when `os.Stat` fails. -/
def getFileSize (fs : FS) (path : String) : Int :=
  match fs path with
  | none => 0
  | some (Node.file data) => byteSize data
  | some Node.dir => dirStatSize

/-- Go `os.Mkdir` when the operating system accepts the call: fails when the
path exists.  A missing parent directory and other refusals are in
`osMkdirOn`. -/
def osMkdir (fs : FS) (p : String) : FS × Bool :=
  match fs p with
  | none => (fs.set p (some Node.dir), true)
  | some _ => (fs, false)

/-- Go `os.OpenFile(p, O_RDWR|O_APPEND|O_CREATE, 0666)` when the operating
system accepts the call: the handle, or nil on a directory.  A missing parent
directory and other refusals are in `osOpenFileOn`. -/
def osOpenFile (fs : FS) (p : String) : FS × Option String :=
  match fs p with
  | none => (fs.set p (some (Node.file [])), some p)
  | some (Node.file _) => (fs, some p)
  | some Node.dir => (fs, none)

/-- Go `os.Create` when the operating system accepts the call: create or
truncate; the handle, or nil on a directory.  Refusals are in `osCreateOn`. -/
def osCreate (fs : FS) (p : String) : FS × Option String :=
  match fs p with
  | some Node.dir => (fs, none)
  | _ => (fs.set p (some (Node.file [])), some p)

/-- Go `os.Remove` when the operating system accepts the call: fails when
nothing is at the path.  Refusals are in `osRemoveOn`. -/
def osRemove (fs : FS) (p : String) : FS × Bool :=
  match fs p with
  | none => (fs, false)
  | some _ => (fs.set p none, true)

/-- Go `os.Rename` when the operating system accepts the call: moves the
entry, replacing the target; fails when the source path is missing.  A name
that is too long and other refusals with the source present are in
`osRenameOn`. -/
def osRename (fs : FS) (old new : String) : FS × Bool :=
  match fs old with
  | none => (fs, false)
  | some n => ((fs.set old none).set new (some n), true)

/-- A write through an open handle appends one record to the file. -/
def fsAppend (fs : FS) (h : String) (rec : String) : FS :=
  match fs h with
  | some (Node.file data) => fs.set h (some (Node.file (data ++ [rec])))
  | _ => fs

/-! ## Logger state -/

/-- Go `*log.Logger` over the current file handle; `mirror` tells whether the
writer is `io.MultiWriter(logf, os.Stderr)`. -/
structure LogWriter where
  mirror : Bool
  deriving DecidableEq, Repr

/-- Source `type __FILE struct` (the mutex left out). -/
structure __FILE where
  dir : String
  fname : String
  suffix : Int
  iscover : Bool
  date : Option Int
  logf : Option String
  lg : Option LogWriter
  deriving DecidableEq, Repr

/-- Source `type Logger struct`. -/
structure Logger where
  level : Int
  maxFileSize : Int
  maxFileCount : Nat
  rollDay : Nat
  rollWay : Int
  console : Bool
  logObj : Option __FILE
  deriving DecidableEq, Repr

/-- The logger together with the world it acts on. -/
structure Sys where
  log : Logger
  fs : FS
  stderr : List String
  monitors : Nat

/-- What a call needs from its surroundings: today, the header time stamp of
the `log` package, the `file:line` of the application call and of its
caller. -/
structure Ctx where
  now : Int
  stamp : String
  site : String
  outer : String

/-- Outcome of a call: the state it leaves and the panic in flight, if any. -/
structure Res where
  sys : Sys
  panic : Option String

/-- Outcome of a call that returns a `bool`. -/
structure BoolRes where
  sys : Sys
  panic : Option String
  val : Bool

/-- The run-time panic of a nil pointer dereference. -/
def nilDeref : String :=
  "runtime error: invalid memory address or nil pointer dereference"

/-- Source `NewLogger`. -/
def NewLogger : Logger :=
  { level := ERROR, maxFileSize := 0, maxFileCount := 0, rollDay := 0,
    rollWay := _NULL, console := true, logObj := none }

/-- A fresh logger in a given file system. -/
def Sys.init (fs : FS) : Sys :=
  { log := NewLogger, fs := fs, stderr := [], monitors := 0 }

/-- Path of the active file, `dir + "/" + fname`. -/
def activePath (f : __FILE) : String := f.dir ++ "/" ++ f.fname

/-- Path of the numbered archive, `dir + "/" + fname + "." + Itoa(int(i))`. -/
def archPath (f : __FILE) (i : Nat) : String :=
  f.dir ++ "/" ++ f.fname ++ "." ++ Itoa (intOfUint i)

/-- Path of the dated archive for boundary `d`: the day before, formatted. -/
def datePath (f : __FILE) (d : Int) : String :=
  f.dir ++ "/" ++ f.fname ++ "." ++ formatDate (d - 1)

/-! ## Records -/

/-- Record of `lg.Output(2, fmt.Sprintln(tag, s))`: prefix, header, message. -/
def outputRec (ctx : Ctx) (tag args : String) : String :=
  "\n" ++ ctx.stamp ++ ctx.site ++ ": " ++ tag ++ " " ++ args ++ "\n"

/-- Record of `lg.Println(...)` issued at line `line` of `logger.go`. -/
def printlnRec (ctx : Ctx) (line : String) (msg : String) : String :=
  "\n" ++ ctx.stamp ++ "logger.go:" ++ line ++ ": " ++ msg ++ "\n"

/-- One write through `this.logObj.lg`: to the file first, then to standard
error when fanned in; a failed file write (nil handle) stops the fan-out. -/
def lgWrite (rec : String) (s : Sys) : Res :=
  match s.log.logObj with
  | none => ⟨s, some nilDeref⟩
  | some f =>
    match f.lg with
    | none => ⟨s, some nilDeref⟩
    | some w =>
      match f.logf with
      | none => ⟨s, none⟩
      | some h =>
        ⟨{ s with fs := fsAppend s.fs h rec,
                  stderr := if w.mirror then s.stderr ++ [rec] else s.stderr }, none⟩

/-! ## Operations -/

/-- Source `SetConsole`. -/
def SetConsole (b : Bool) (s : Sys) : Res :=
  ⟨{ s with log := { s.log with console := b } }, none⟩

/-- Source `SetLevel`: panics on a level outside `ALL..OFF`. -/
def SetLevel (level : Int) (s : Sys) : Res :=
  if level < ALL ∨ level > OFF then ⟨s, some "logger: set level error!"⟩
  else ⟨{ s with log := { s.log with level := level } }, none⟩

/-- Source `isMustRename`: has the rotation condition been reached. -/
def isMustRename (now : Int) (s : Sys) : BoolRes :=
  if s.log.rollWay = _DATE then
    match s.log.logObj with
    | none => ⟨s, some nilDeref, false⟩
    | some f =>
      match f.date with
      | none => ⟨s, some nilDeref, false⟩
      | some d => if now > d then ⟨s, none, true⟩ else ⟨s, none, false⟩
  else if s.log.rollWay = _FILE then
    match s.log.logObj with
    | none => ⟨s, some nilDeref, false⟩
    | some f =>
      if getFileSize s.fs (f.dir ++ "/" ++ f.fname) ≥ s.log.maxFileSize then ⟨s, none, true⟩
      else ⟨s, none, false⟩
  else ⟨s, none, false⟩

/-- The loop of `rename`, `for i := maxFileCount; i >= 1; i--`, from counter
value `i` down: archive `n` is removed, a lower archive moves one up. -/
def shiftArchives (f : __FILE) (n : Nat) : Nat → FS → FS
  | 0, fs => fs
  | i + 1, fs =>
    let oldname := archPath f (i + 1)
    let fs1 :=
      if i + 1 = n then
        if isExist fs oldname then (osRemove fs oldname).1 else fs
      else
        if isExist fs oldname then (osRename fs oldname (archPath f (i + 1 + 1))).1 else fs
    shiftArchives f n i fs1

/-- The tail of both branches of `rename`: `os.Create` of the active file and
a new writer, with standard error fanned in when `console` is set. -/
def reopen (s : Sys) (f : __FILE) (fs : FS) : Sys :=
  let c := osCreate fs (f.dir ++ "/" ++ f.fname)
  { s with fs := c.1,
           log := { s.log with
             logObj := some { f with logf := c.2, lg := some ⟨s.log.console⟩ } } }

/-- Source `rename`: the rotation itself. -/
def rename (ctx : Ctx) (s : Sys) : Res :=
  if s.log.rollWay = _DATE then
    match s.log.logObj with
    | none => ⟨s, some nilDeref⟩
    | some f =>
      match f.date with
      | none => ⟨s, some nilDeref⟩
      | some d =>
        let newname := f.dir ++ "/" ++ f.fname ++ "." ++ formatDate (d - 1)
        if !isExist s.fs newname then
          -- logf.Sync(); logf.Close() when the handle is not nil
          let r :=
            if s.log.maxFileCount = 1 then osRemove s.fs (f.dir ++ "/" ++ f.fname)
            else osRename s.fs (f.dir ++ "/" ++ f.fname) newname
          -- err != nil: lg.Println over the handle closed above writes nothing
          if !r.2 ∧ f.lg = none then ⟨{ s with fs := r.1 }, some nilDeref⟩
          else ⟨reopen s { f with date := some ctx.now } r.1, none⟩
        else ⟨s, none⟩
  else if s.log.rollWay = _FILE then
    match s.log.logObj with
    | none => ⟨s, some nilDeref⟩
    | some f =>
      let fs1 :=
        if s.log.maxFileCount = 1 then
          match f.logf with
          | some _ => (osRemove s.fs (f.dir ++ "/" ++ f.fname)).1
          | none => s.fs
        else
          let fs0 := shiftArchives f s.log.maxFileCount s.log.maxFileCount s.fs
          -- logf.Sync(); logf.Close(): both tolerate a nil receiver
          (osRename fs0 (f.dir ++ "/" ++ f.fname) (f.dir ++ "/" ++ f.fname ++ "." ++ Itoa 1)).1
      ⟨reopen s f fs1, none⟩
  else ⟨s, none⟩

/-- The branch both setters end in: open the active file when no rotation is
due, rotate otherwise; then start the monitor goroutine. -/
def openOrRotate (ctx : Ctx) (dir name : String) (s2 : Sys) : Res :=
  let m := isMustRename ctx.now s2
  match m.panic with
  | some v => ⟨m.sys, some v⟩
  | none =>
    if !m.val then
      match m.sys.log.logObj with
      | none => ⟨m.sys, some nilDeref⟩
      | some g =>
        let o := osOpenFile m.sys.fs (dir ++ "/" ++ name)
        ⟨{ m.sys with
            fs := o.1,
            log := { m.sys.log with
              logObj := some { g with logf := o.2, lg := some ⟨m.sys.log.console⟩ } },
            monitors := m.sys.monitors + 1 }, none⟩
    else
      let r := rename ctx m.sys
      match r.panic with
      | some v => ⟨r.sys, some v⟩
      | none => ⟨{ r.sys with monitors := r.sys.monitors + 1 }, none⟩

/-- The common tail of the two setters, entered with the new `logObj` in
place: create the directory when missing, then open the active file or
rotate, and start the monitor. -/
def startSink (ctx : Ctx) (dir name : String) (s1 : Sys) : Res :=
  openOrRotate ctx dir name
    (if !isExist s1.fs dir then { s1 with fs := (osMkdir s1.fs dir).1 } else s1)

/-- Source `SetRollFile`: rotate by file size. -/
def SetRollFile (ctx : Ctx) (dir name : String) (maxfilesize maxfilecount : Nat)
    (unit : Int) (s : Sys) : Res :=
  if dir = "" ∨ name = "" ∨ maxfilesize = 0 ∨ maxfilecount = 0 then
    ⟨s, some "Logger: SetRollFile error!"⟩
  else if s.log.rollWay ≠ _NULL then ⟨s, none⟩
  else
    let f : __FILE :=
      { dir := dir, fname := name, suffix := 0, iscover := false, date := none,
        logf := none, lg := none }
    let s1 : Sys :=
      { s with log := { s.log with
          maxFileCount := maxfilecount,
          maxFileSize := wrap64 (intOfUint maxfilesize * unit),
          rollWay := _FILE,
          logObj := some f } }
    startSink ctx dir name s1

/-- Source `SetRollDate`: rotate by day; the boundary starts at tomorrow. -/
def SetRollDate (ctx : Ctx) (dir name : String) (interval : Nat) (s : Sys) : Res :=
  if interval = 0 ∨ dir = "" ∨ name = "" then
    ⟨s, some "Logger: SetRollData error!"⟩
  else if s.log.rollWay ≠ _NULL then ⟨s, none⟩
  else
    let f : __FILE :=
      { dir := dir, fname := name, suffix := 0, iscover := false,
        date := some (ctx.now + 1), logf := none, lg := none }
    let s1 : Sys :=
      { s with log := { s.log with rollWay := _DATE, rollDay := interval, logObj := some f } }
    startSink ctx dir name s1

/-- Source `Console`, with `runtime.Caller(2)` rendered as `caller` and the
variadic arguments rendered as `args`. -/
def Console (ctx : Ctx) (caller args : String) (s : Sys) : Res :=
  if s.log.console then lgWrite (printlnRec ctx "210" (caller ++ " " ++ args)) s
  else ⟨s, none⟩

/-- Source `catchError`, run as a deferred call on the outcome of the body. -/
def catchError (ctx : Ctx) (r : Res) : Res :=
  match r.panic with
  | none => r
  | some v => lgWrite (printlnRec ctx "400" ("catchError: " ++ v)) r.sys

/-- The body the five leveled writes share after the level gate: lock, one
`lg.Output`, then `this.Console(tag, s)`. -/
def writeBody (ctx : Ctx) (tag args : String) (s : Sys) : Res :=
  match s.log.logObj with
  | none => ⟨s, some nilDeref⟩
  | some _ =>
    let r := lgWrite (outputRec ctx tag args) s
    match r.panic with
    | some v => ⟨r.sys, some v⟩
    | none => Console ctx ctx.site ("[" ++ tag ++ " " ++ args ++ "]") r.sys

/-- A leveled write of severity `lvl`: level gate, deferred `catchError`,
body. -/
def leveled (lvl : Int) (tag : String) (ctx : Ctx) (args : String) (s : Sys) : Res :=
  if s.log.level > lvl then ⟨s, none⟩
  else catchError ctx (writeBody ctx tag args s)

/-- Source `Debug`. -/
def Debug (ctx : Ctx) (args : String) (s : Sys) : Res := leveled DEBUG "debug:" ctx args s
/-- Source `Info`. -/
def Info (ctx : Ctx) (args : String) (s : Sys) : Res := leveled INFO "info:" ctx args s
/-- Source `Warn`. -/
def Warn (ctx : Ctx) (args : String) (s : Sys) : Res := leveled WARN "warn:" ctx args s
/-- Source `Error`. -/
def Error (ctx : Ctx) (args : String) (s : Sys) : Res := leveled ERROR "error:" ctx args s
/-- Source `Fatal`. -/
def Fatal (ctx : Ctx) (args : String) (s : Sys) : Res := leveled FATAL "fatal:" ctx args s

/-- Source `fileCheck`, one tick of `fileMonitor`: rotate when the condition
holds; a panic is recovered and printed through `lg`. -/
def fileCheck (ctx : Ctx) (s : Sys) : Res :=
  let body : Res :=
    match s.log.logObj with
    | none => ⟨s, none⟩
    | some _ =>
      let m := isMustRename ctx.now s
      match m.panic with
      | some v => ⟨m.sys, some v⟩
      | none => if m.val then rename ctx m.sys else ⟨m.sys, none⟩
  match body.panic with
  | none => body
  | some v => lgWrite (printlnRec ctx "387" v) body.sys

/-- The calls a client (and the monitor) can make on a logger. -/
inductive Call where
  | setConsole (b : Bool)
  | setLevel (level : Int)
  | setRollFile (dir name : String) (maxfilesize maxfilecount : Nat) (unit : Int)
  | setRollDate (dir name : String) (interval : Nat)
  | console (args : String)
  | debug (args : String)
  | info (args : String)
  | warn (args : String)
  | error (args : String)
  | fatal (args : String)
  | tick

/-- Run one call. -/
def Call.run (ctx : Ctx) : Call → Sys → Res
  | Call.setConsole b, s => SetConsole b s
  | Call.setLevel l, s => SetLevel l s
  | Call.setRollFile d n a b u, s => SetRollFile ctx d n a b u s
  | Call.setRollDate d n i, s => SetRollDate ctx d n i s
  | Call.console a, s => Console ctx ctx.outer a s
  | Call.debug a, s => Debug ctx a s
  | Call.info a, s => Info ctx a s
  | Call.warn a, s => Warn ctx a s
  | Call.error a, s => Error ctx a s
  | Call.fatal a, s => Fatal ctx a s
  | Call.tick, s => fileCheck ctx s

/-- Run a sequence of calls, each in its own surroundings; the state left by
a call that panicked is carried on. -/
def runCalls : List (Ctx × Call) → Sys → Sys
  | [], s => s
  | c :: cs, s => runCalls cs (c.2.run c.1 s).sys


/-! ## Sample runs -/

/-- Surroundings of the sample calls: 2024-03-10, called from `main.go:7`. -/
def demoCtx : Ctx :=
  { now := 19792, stamp := "2024/03/10 12:00:00 ", site := "main.go:7", outer := "proc.go:250" }

/-- A size-mode sink with a threshold of one byte and three generations,
console off, after one `Error` write: the active file holds one record. -/
def fullSink : Sys :=
  (Error demoCtx "[x]"
    (SetRollFile demoCtx "logs" "a.log" 1 3 1
      (SetConsole false (Sys.init FS.empty)).sys).sys).sys

/-! ## Runs of rotations -/

/-- Records written through the open handle of the sink, as the writer does
between two rotations. -/
def writeRecords (recs : List String) (s : Sys) : Sys :=
  match s.log.logObj with
  | none => s
  | some f =>
    match f.logf with
    | none => s
    | some h => { s with fs := recs.foldl (fun a r => fsAppend a h r) s.fs }

/-- Consecutive rotations: before each `rename` the active file receives the
next block of records. -/
def rotations (ctx : Ctx) : List (List String) → Sys → Sys
  | [], s => s
  | w :: ws, s => rotations ctx ws (rename ctx (writeRecords w s)).sys

/-- A size-mode sink on directory and base name of `f`, keeping `n`
generations, with the active file open. -/
def SizeSink (f : __FILE) (n : Nat) (s : Sys) : Prop :=
  s.log.rollWay = _FILE ∧ s.log.maxFileCount = n ∧
  ∃ g, s.log.logObj = some g ∧ g.dir = f.dir ∧ g.fname = f.fname ∧
    g.logf = some (activePath f)

/-- Relative to the file system `base`: the active file has content `a`, the
archives `1 .. min (length hist) n` hold the contents of `hist` (most recent
first), and every other path is as in `base`. -/
def Archived (f : __FILE) (n : Nat) (hist : List (List String)) (a : List String)
    (base fs : FS) : Prop :=
  fs (activePath f) = some (Node.file a) ∧
  (∀ i, 1 ≤ i → i ≤ min hist.length n →
    fs (archPath f i) = (hist[i - 1]?).map Node.file) ∧
  (∀ p, p ≠ activePath f → (∀ i, 1 ≤ i → i ≤ min hist.length n → p ≠ archPath f i) →
    fs p = base p)

/-- The `__FILE` object of the sample sinks. -/
def demoFile : __FILE :=
  { dir := "logs", fname := "a.log", suffix := 0, iscover := false, date := none,
    logf := some "logs/a.log", lg := some ⟨false⟩ }

/-- The sample size-mode sink with the console left on (the default), after
one `Error` write. -/
def mirroredSink : Sys :=
  (Error demoCtx "[x]"
    (SetRollFile demoCtx "logs" "a.log" 1 3 1
      (SetConsole true (Sys.init FS.empty)).sys).sys).sys

/-- A date-mode sink configured on 2024-03-10: the boundary is 2024-03-11. -/
def dateSink : Sys :=
  (SetRollDate demoCtx "logs" "a.log" 1 (SetConsole false (Sys.init FS.empty)).sys).sys

/-- The date-mode sink after one `Error` write and a rotation forced on the
boundary day itself: the archive `logs/a.log.2024-03-10` now exists. -/
def rotatedDateSink : Sys :=
  (rename { demoCtx with now := 19793 } (Error demoCtx "[x]" dateSink).sys).sys

/-- The boundary date of the sink, when there is one. -/
def boundary (s : Sys) : Option Int :=
  match s.log.logObj with
  | none => none
  | some f => f.date

/-- A size-mode sink keeping a single generation, console off, after one
`Error` write. -/
def singleSink : Sys :=
  (Error demoCtx "[x]"
    (SetRollFile demoCtx "logs" "a.log" 1 1 1
      (SetConsole false (Sys.init FS.empty)).sys).sys).sys

/-- A size-mode sink on directory and base name of `f` keeping one
generation; the handle is nil or open on the active file. -/
def SingleSink (f : __FILE) (s : Sys) : Prop :=
  s.log.rollWay = _FILE ∧ s.log.maxFileCount = 1 ∧
  ∃ g, s.log.logObj = some g ∧ g.dir = f.dir ∧ g.fname = f.fname ∧
    (g.logf = none ∨ g.logf = some (activePath f))


/-! ## Interleavings of writers and monitor -/

/-- One critical section of the sink's lock: a leveled write of some
severity and tag, a check of the monitor (`fileCheck`), or the rotation a
check leads to when other writes came between the check and the lock. -/
inductive Step where
  | write (lvl : Int) (tag args : String)
  | tick
  | rotate

/-- The lines the writes of an interleaving produce, in order, on a logger of
level `level`. -/
def written (level : Int) : List (Ctx × Step) → List String
  | [] => []
  | (ctx, Step.write lvl tag args) :: es =>
    (if level > lvl then [] else [outputRec ctx tag args]) ++ written level es
  | (_, Step.tick) :: es => written level es
  | (_, Step.rotate) :: es => written level es

/-- The records of the regular file at a path; none when there is no such
file. -/
def fileData (fs : FS) (p : String) : List String :=
  match fs p with
  | some (Node.file data) => data
  | _ => []

/-- The records of the archives `k, k - 1, .., 1`, oldest first. -/
def storedRecords (f : __FILE) (fs : FS) : Nat → List String
  | 0 => []
  | i + 1 => fileData fs (archPath f (i + 1)) ++ storedRecords f fs i

/-- A size-mode sink on directory and base name of `f`, keeping `n`
generations, of level `lv`, console off, with handle and writer in place. -/
def WriterSink (f : __FILE) (n : Nat) (lv : Int) (s : Sys) : Prop :=
  s.log.rollWay = _FILE ∧ s.log.maxFileCount = n ∧ s.log.level = lv ∧
  s.log.console = false ∧
  ∃ g w, s.log.logObj = some g ∧ g.dir = f.dir ∧ g.fname = f.fname ∧
    g.logf = some (activePath f) ∧ g.lg = some w

/-- The sample size-mode sink right after configuration: threshold one byte,
three generations, console off, level `ERROR`, empty active file. -/
def freshSink : Sys :=
  (SetRollFile demoCtx "logs" "a.log" 1 3 1 (SetConsole false (Sys.init FS.empty)).sys).sys

/-- Four writes, each followed by a check of the monitor: four rotations. -/
def burstRun : List (Ctx × Step) :=
  [(demoCtx, Step.write ERROR "error:" "[x]"), (demoCtx, Step.tick),
   (demoCtx, Step.write ERROR "error:" "[b]"), (demoCtx, Step.tick),
   (demoCtx, Step.write ERROR "error:" "[c]"), (demoCtx, Step.tick),
   (demoCtx, Step.write ERROR "error:" "[d]"), (demoCtx, Step.tick)]

/-- Four writes of two writers around two rotations. -/
def calmRun : List (Ctx × Step) :=
  [(demoCtx, Step.write ERROR "error:" "[x]"), (demoCtx, Step.tick),
   (demoCtx, Step.write FATAL "fatal:" "[b]"), (demoCtx, Step.write ERROR "error:" "[c]"),
   (demoCtx, Step.rotate), (demoCtx, Step.write ERROR "error:" "[d]")]


/-! ## An operating system that may refuse calls

The definitions above are the logger on an operating system that accepts
every call.  These are the same operations when the system may refuse a
call: a name longer than the limit, a missing parent directory, missing
permissions, a full disk.  A refused call has no effect and returns an
error, which the source drops or prints. -/

/-- A call of the logger into the operating system, with its arguments. -/
inductive SysCall where
  | stat (p : String)
  | mkdir (p : String)
  | openFile (p : String)
  | create (p : String)
  | remove (p : String)
  | rename (old new : String)
  | write (h rec : String)

/-- The calls the operating system refuses during one call of the logger. -/
abbrev Refusals := SysCall → Bool

/-- The operating system that refuses nothing. -/
def accepting : Refusals := fun _ => false

/-- Source `isExist`: a refused `os.Stat` gives an error that `os.IsExist`
does not accept. -/
def isExistOn (os : Refusals) (fs : FS) (path : String) : Bool :=
  if os (SysCall.stat path) then false else isExist fs path

/-- Source `getFileSize`: 0 on a refused `os.Stat`. -/
def getFileSizeOn (os : Refusals) (fs : FS) (path : String) : Int :=
  if os (SysCall.stat path) then 0 else getFileSize fs path

/-- Go `os.Mkdir`. -/
def osMkdirOn (os : Refusals) (fs : FS) (p : String) : FS × Bool :=
  if os (SysCall.mkdir p) then (fs, false) else osMkdir fs p

/-- Go `os.OpenFile(p, O_RDWR|O_APPEND|O_CREATE, 0666)`. -/
def osOpenFileOn (os : Refusals) (fs : FS) (p : String) : FS × Option String :=
  if os (SysCall.openFile p) then (fs, none) else osOpenFile fs p

/-- Go `os.Create`. -/
def osCreateOn (os : Refusals) (fs : FS) (p : String) : FS × Option String :=
  if os (SysCall.create p) then (fs, none) else osCreate fs p

/-- Go `os.Remove`. -/
def osRemoveOn (os : Refusals) (fs : FS) (p : String) : FS × Bool :=
  if os (SysCall.remove p) then (fs, false) else osRemove fs p

/-- Go `os.Rename`. -/
def osRenameOn (os : Refusals) (fs : FS) (old new : String) : FS × Bool :=
  if os (SysCall.rename old new) then (fs, false) else osRename fs old new

/-- One write through `this.logObj.lg`; a refused file write stops the
fan-out like a nil handle does. -/
def lgWriteOn (os : Refusals) (rec : String) (s : Sys) : Res :=
  match s.log.logObj with
  | none => ⟨s, some nilDeref⟩
  | some f =>
    match f.lg with
    | none => ⟨s, some nilDeref⟩
    | some w =>
      match f.logf with
      | none => ⟨s, none⟩
      | some h =>
        if os (SysCall.write h rec) then ⟨s, none⟩
        else
          ⟨{ s with fs := fsAppend s.fs h rec,
                    stderr := if w.mirror then s.stderr ++ [rec] else s.stderr }, none⟩

/-- Source `isMustRename`. -/
def isMustRenameOn (os : Refusals) (now : Int) (s : Sys) : BoolRes :=
  if s.log.rollWay = _DATE then
    match s.log.logObj with
    | none => ⟨s, some nilDeref, false⟩
    | some f =>
      match f.date with
      | none => ⟨s, some nilDeref, false⟩
      | some d => if now > d then ⟨s, none, true⟩ else ⟨s, none, false⟩
  else if s.log.rollWay = _FILE then
    match s.log.logObj with
    | none => ⟨s, some nilDeref, false⟩
    | some f =>
      if getFileSizeOn os s.fs (f.dir ++ "/" ++ f.fname) ≥ s.log.maxFileSize then
        ⟨s, none, true⟩
      else ⟨s, none, false⟩
  else ⟨s, none, false⟩

/-- The loop of `rename`, from counter value `i` down. -/
def shiftArchivesOn (os : Refusals) (f : __FILE) (n : Nat) : Nat → FS → FS
  | 0, fs => fs
  | i + 1, fs =>
    let oldname := archPath f (i + 1)
    let fs1 :=
      if i + 1 = n then
        if isExistOn os fs oldname then (osRemoveOn os fs oldname).1 else fs
      else
        if isExistOn os fs oldname then
          (osRenameOn os fs oldname (archPath f (i + 1 + 1))).1
        else fs
    shiftArchivesOn os f n i fs1

/-- The tail of both branches of `rename`: `os.Create` and a new writer. -/
def reopenOn (os : Refusals) (s : Sys) (f : __FILE) (fs : FS) : Sys :=
  let c := osCreateOn os fs (f.dir ++ "/" ++ f.fname)
  { s with fs := c.1,
           log := { s.log with
             logObj := some { f with logf := c.2, lg := some ⟨s.log.console⟩ } } }

/-- Source `rename`. -/
def renameOn (os : Refusals) (ctx : Ctx) (s : Sys) : Res :=
  if s.log.rollWay = _DATE then
    match s.log.logObj with
    | none => ⟨s, some nilDeref⟩
    | some f =>
      match f.date with
      | none => ⟨s, some nilDeref⟩
      | some d =>
        let newname := f.dir ++ "/" ++ f.fname ++ "." ++ formatDate (d - 1)
        if !isExistOn os s.fs newname then
          -- logf.Sync(); logf.Close() when the handle is not nil
          let r :=
            if s.log.maxFileCount = 1 then osRemoveOn os s.fs (f.dir ++ "/" ++ f.fname)
            else osRenameOn os s.fs (f.dir ++ "/" ++ f.fname) newname
          -- err != nil: lg.Println over the handle closed above writes nothing
          if !r.2 ∧ f.lg = none then ⟨{ s with fs := r.1 }, some nilDeref⟩
          else ⟨reopenOn os s { f with date := some ctx.now } r.1, none⟩
        else ⟨s, none⟩
  else if s.log.rollWay = _FILE then
    match s.log.logObj with
    | none => ⟨s, some nilDeref⟩
    | some f =>
      let fs1 :=
        if s.log.maxFileCount = 1 then
          match f.logf with
          | some _ => (osRemoveOn os s.fs (f.dir ++ "/" ++ f.fname)).1
          | none => s.fs
        else
          let fs0 := shiftArchivesOn os f s.log.maxFileCount s.log.maxFileCount s.fs
          -- logf.Sync(); logf.Close(): both tolerate a nil receiver
          (osRenameOn os fs0 (f.dir ++ "/" ++ f.fname)
            (f.dir ++ "/" ++ f.fname ++ "." ++ Itoa 1)).1
      ⟨reopenOn os s f fs1, none⟩
  else ⟨s, none⟩

/-- The branch both setters end in. -/
def openOrRotateOn (os : Refusals) (ctx : Ctx) (dir name : String) (s2 : Sys) : Res :=
  let m := isMustRenameOn os ctx.now s2
  match m.panic with
  | some v => ⟨m.sys, some v⟩
  | none =>
    if !m.val then
      match m.sys.log.logObj with
      | none => ⟨m.sys, some nilDeref⟩
      | some g =>
        let o := osOpenFileOn os m.sys.fs (dir ++ "/" ++ name)
        ⟨{ m.sys with
            fs := o.1,
            log := { m.sys.log with
              logObj := some { g with logf := o.2, lg := some ⟨m.sys.log.console⟩ } },
            monitors := m.sys.monitors + 1 }, none⟩
    else
      let r := renameOn os ctx m.sys
      match r.panic with
      | some v => ⟨r.sys, some v⟩
      | none => ⟨{ r.sys with monitors := r.sys.monitors + 1 }, none⟩

/-- The common tail of the two setters. -/
def startSinkOn (os : Refusals) (ctx : Ctx) (dir name : String) (s1 : Sys) : Res :=
  openOrRotateOn os ctx dir name
    (if !isExistOn os s1.fs dir then { s1 with fs := (osMkdirOn os s1.fs dir).1 } else s1)

/-- Source `SetRollFile`. -/
def SetRollFileOn (os : Refusals) (ctx : Ctx) (dir name : String)
    (maxfilesize maxfilecount : Nat) (unit : Int) (s : Sys) : Res :=
  if dir = "" ∨ name = "" ∨ maxfilesize = 0 ∨ maxfilecount = 0 then
    ⟨s, some "Logger: SetRollFile error!"⟩
  else if s.log.rollWay ≠ _NULL then ⟨s, none⟩
  else
    let f : __FILE :=
      { dir := dir, fname := name, suffix := 0, iscover := false, date := none,
        logf := none, lg := none }
    let s1 : Sys :=
      { s with log := { s.log with
          maxFileCount := maxfilecount,
          maxFileSize := wrap64 (intOfUint maxfilesize * unit),
          rollWay := _FILE,
          logObj := some f } }
    startSinkOn os ctx dir name s1

/-- Source `SetRollDate`. -/
def SetRollDateOn (os : Refusals) (ctx : Ctx) (dir name : String) (interval : Nat)
    (s : Sys) : Res :=
  if interval = 0 ∨ dir = "" ∨ name = "" then
    ⟨s, some "Logger: SetRollData error!"⟩
  else if s.log.rollWay ≠ _NULL then ⟨s, none⟩
  else
    let f : __FILE :=
      { dir := dir, fname := name, suffix := 0, iscover := false,
        date := some (ctx.now + 1), logf := none, lg := none }
    let s1 : Sys :=
      { s with log := { s.log with rollWay := _DATE, rollDay := interval, logObj := some f } }
    startSinkOn os ctx dir name s1

/-- Source `Console`. -/
def ConsoleOn (os : Refusals) (ctx : Ctx) (caller args : String) (s : Sys) : Res :=
  if s.log.console then lgWriteOn os (printlnRec ctx "210" (caller ++ " " ++ args)) s
  else ⟨s, none⟩

/-- Source `catchError`, run as a deferred call on the outcome of the body. -/
def catchErrorOn (os : Refusals) (ctx : Ctx) (r : Res) : Res :=
  match r.panic with
  | none => r
  | some v => lgWriteOn os (printlnRec ctx "400" ("catchError: " ++ v)) r.sys

/-- The body the five leveled writes share after the level gate. -/
def writeBodyOn (os : Refusals) (ctx : Ctx) (tag args : String) (s : Sys) : Res :=
  match s.log.logObj with
  | none => ⟨s, some nilDeref⟩
  | some _ =>
    let r := lgWriteOn os (outputRec ctx tag args) s
    match r.panic with
    | some v => ⟨r.sys, some v⟩
    | none => ConsoleOn os ctx ctx.site ("[" ++ tag ++ " " ++ args ++ "]") r.sys

/-- A leveled write of severity `lvl`: `Debug` is `leveledOn os DEBUG "debug:"`
and so on for `Info`, `Warn`, `Error`, `Fatal`. -/
def leveledOn (os : Refusals) (lvl : Int) (tag : String) (ctx : Ctx) (args : String)
    (s : Sys) : Res :=
  if s.log.level > lvl then ⟨s, none⟩
  else catchErrorOn os ctx (writeBodyOn os ctx tag args s)

/-- Source `fileCheck`, one tick of `fileMonitor`. -/
def fileCheckOn (os : Refusals) (ctx : Ctx) (s : Sys) : Res :=
  let body : Res :=
    match s.log.logObj with
    | none => ⟨s, none⟩
    | some _ =>
      let m := isMustRenameOn os ctx.now s
      match m.panic with
      | some v => ⟨m.sys, some v⟩
      | none => if m.val then renameOn os ctx m.sys else ⟨m.sys, none⟩
  match body.panic with
  | none => body
  | some v => lgWriteOn os (printlnRec ctx "387" v) body.sys

/-- Run one call on an operating system with the given refusals. -/
def Call.runOn (os : Refusals) (ctx : Ctx) : Call → Sys → Res
  | Call.setConsole b, s => SetConsole b s
  | Call.setLevel l, s => SetLevel l s
  | Call.setRollFile d n a b u, s => SetRollFileOn os ctx d n a b u s
  | Call.setRollDate d n i, s => SetRollDateOn os ctx d n i s
  | Call.console a, s => ConsoleOn os ctx ctx.outer a s
  | Call.debug a, s => leveledOn os DEBUG "debug:" ctx a s
  | Call.info a, s => leveledOn os INFO "info:" ctx a s
  | Call.warn a, s => leveledOn os WARN "warn:" ctx a s
  | Call.error a, s => leveledOn os ERROR "error:" ctx a s
  | Call.fatal a, s => leveledOn os FATAL "fatal:" ctx a s
  | Call.tick, s => fileCheckOn os ctx s

/-- Run a sequence of calls, each with its own refusals and surroundings. -/
def runCallsOn : List (Refusals × Ctx × Call) → Sys → Sys
  | [], s => s
  | c :: cs, s => runCallsOn cs (c.2.2.runOn c.1 c.2.1 s).sys

/-- Run one step of an interleaving. -/
def Step.runOn (os : Refusals) (ctx : Ctx) : Step → Sys → Sys
  | Step.write lvl tag args, s => (leveledOn os lvl tag ctx args s).sys
  | Step.tick, s => (fileCheckOn os ctx s).sys
  | Step.rotate, s => (renameOn os ctx s).sys

/-- An interleaving on an operating system that may refuse calls. -/
def runStepsOn : List (Refusals × Ctx × Step) → Sys → Sys
  | [], s => s
  | e :: es, s => runStepsOn es (e.2.2.runOn e.1 e.2.1 s)

/-- Does the step call `rename`: a rotation of the monitor, or a check that
finds the condition reached. -/
def Step.rotates (os : Refusals) (ctx : Ctx) : Step → Sys → Bool
  | Step.write _ _ _, _ => false
  | Step.tick, s =>
    match s.log.logObj with
    | none => false
    | some _ =>
      match (isMustRenameOn os ctx.now s).panic with
      | some _ => false
      | none => (isMustRenameOn os ctx.now s).val
  | Step.rotate, _ => true

/-- The number of rotations that take place in an interleaving. -/
def rotationsIn : List (Refusals × Ctx × Step) → Sys → Nat
  | [], _ => 0
  | e :: es, s =>
    (if e.2.2.rotates e.1 e.2.1 s then 1 else 0) + rotationsIn es (e.2.2.runOn e.1 e.2.1 s)

/-- The bytes of the last component of a path. -/
def lastComponentBytes (p : String) : Nat :=
  ((p.data.reverse.takeWhile (fun c => c != '/')).map Char.utf8Size).sum

/-- The refusals of a file system with the usual limit of 255 bytes on a
file name (`ENAMETOOLONG`). -/
def nameLimit : Refusals
  | SysCall.stat p => decide (255 < lastComponentBytes p)
  | SysCall.mkdir p => decide (255 < lastComponentBytes p)
  | SysCall.openFile p => decide (255 < lastComponentBytes p)
  | SysCall.create p => decide (255 < lastComponentBytes p)
  | SysCall.remove p => decide (255 < lastComponentBytes p)
  | SysCall.rename old new =>
    decide (255 < lastComponentBytes old) || decide (255 < lastComponentBytes new)
  | SysCall.write _ _ => false

/-- A base name of 245 bytes. -/
def longName : String := String.mk (List.replicate 245 'a')

/-- A client run on a file system with the name limit: date mode configured
on 2024-03-10 with the long base name, one line written. -/
def longRun : List (Refusals × Ctx × Call) :=
  [(nameLimit, demoCtx, Call.setConsole false),
   (nameLimit, demoCtx, Call.setRollDate "logs" longName 1),
   (nameLimit, demoCtx, Call.error "[x]")]

/-- The same run with the base name `a.log`. -/
def shortRun : List (Refusals × Ctx × Call) :=
  [(nameLimit, demoCtx, Call.setConsole false),
   (nameLimit, demoCtx, Call.setRollDate "logs" "a.log" 1),
   (nameLimit, demoCtx, Call.error "[x]")]

/-! ## Reachable states -/

/-- What every state reached from `NewLogger` satisfies, whatever the
operating system refuses: outside size mode `maxFileCount` still has its zero
value, and a date-mode logger has its file object with a boundary date and a
writer. -/
def DateReady (s : Sys) : Prop :=
  (s.log.rollWay ≠ _FILE → s.log.maxFileCount = 0) ∧
  (s.log.rollWay = _DATE →
    ∃ f d w, s.log.logObj = some f ∧ f.date = some d ∧ f.lg = some w)

/-- An interleaving on the operating system that refuses nothing. -/
def onAccepting (es : List (Ctx × Step)) : List (Refusals × Ctx × Step) :=
  es.map (fun e => (accepting, e.1, e.2))

/-! ## Path names are distinct -/


theorem digitChar_inj10 : ∀ a b : Nat, a < 10 → b < 10 → Nat.digitChar a = Nat.digitChar b → a = b := by
  intro a b ha hb
  interval_cases a <;> interval_cases b <;> simp [Nat.digitChar]

theorem digitChar_ne_minus : ∀ a : Nat, a < 10 → Nat.digitChar a ≠ '-' := by
  intro a ha
  interval_cases a <;> simp [Nat.digitChar]

theorem toDigitsCore_acc (f : Nat) : ∀ (n : Nat) (ds : List Char),
    Nat.toDigitsCore 10 f n ds = Nat.toDigitsCore 10 f n [] ++ ds := by
  induction f with
  | zero => intro n ds; simp [Nat.toDigitsCore]
  | succ f ih =>
    intro n ds
    simp only [Nat.toDigitsCore]
    split
    · simp
    · rw [ih (n / 10) (Nat.digitChar (n % 10) :: ds), ih (n / 10) [Nat.digitChar (n % 10)]]
      simp

theorem toDigitsCore_succ (f n : Nat) :
    Nat.toDigitsCore 10 (f + 1) n [] =
      (if n / 10 = 0 then [] else Nat.toDigitsCore 10 f (n / 10) []) ++ [Nat.digitChar (n % 10)] := by
  simp only [Nat.toDigitsCore]
  split
  · simp
  · rw [toDigitsCore_acc]

theorem toDigitsCore_inj (f : Nat) : ∀ (g n m : Nat), n < f → m < g →
    Nat.toDigitsCore 10 f n [] = Nat.toDigitsCore 10 g m [] → n = m := by
  induction f with
  | zero => intro g n m hn; omega
  | succ f ih =>
    intro g n m hn hm h
    obtain ⟨g, rfl⟩ : ∃ k, g = k + 1 := ⟨g - 1, by omega⟩
    rw [toDigitsCore_succ, toDigitsCore_succ] at h
    have h2 := List.append_inj' h rfl
    have hd : n % 10 = m % 10 :=
      digitChar_inj10 _ _ (Nat.mod_lt _ (by decide)) (Nat.mod_lt _ (by decide)) (by simpa using h2.2)
    have h1 := h2.1
    by_cases hn0 : n / 10 = 0 <;> by_cases hm0 : m / 10 = 0
    · omega
    · rw [if_pos hn0, if_neg hm0] at h1
      obtain ⟨k, rfl⟩ : ∃ k, g = k + 1 := ⟨g - 1, by omega⟩
      rw [toDigitsCore_succ] at h1
      simp at h1
    · rw [if_neg hn0, if_pos hm0] at h1
      obtain ⟨k, rfl⟩ : ∃ k, f = k + 1 := ⟨f - 1, by omega⟩
      rw [toDigitsCore_succ] at h1
      simp at h1
    · rw [if_neg hn0, if_neg hm0] at h1
      have := ih g (n / 10) (m / 10) (by omega) (by omega) h1
      omega

theorem toDigitsCore_no_minus (f : Nat) : ∀ (n : Nat), '-' ∉ Nat.toDigitsCore 10 f n [] := by
  induction f with
  | zero => intro n; simp [Nat.toDigitsCore]
  | succ f ih =>
    intro n
    rw [toDigitsCore_succ]
    intro h
    rcases List.mem_append.1 h with h | h
    · split at h
      · simp at h
      · exact ih _ h
    · simp only [List.mem_singleton] at h
      exact digitChar_ne_minus _ (Nat.mod_lt _ (by decide)) h.symm

theorem Nat_repr_inj (n m : Nat) (h : Nat.repr n = Nat.repr m) : n = m := by
  have h1 : (Nat.repr n).data = (Nat.repr m).data := by rw [h]
  simp only [Nat.repr, Nat.toDigits, List.asString] at h1
  exact toDigitsCore_inj _ _ _ _ (Nat.lt_succ_self n) (Nat.lt_succ_self m) h1

theorem Nat_repr_no_minus (n : Nat) : '-' ∉ (Nat.repr n).data := by
  simp only [Nat.repr, Nat.toDigits, List.asString]
  exact toDigitsCore_no_minus _ _

theorem str_append_left_cancel (a b c : String) (h : a ++ b = a ++ c) : b = c := by
  have h1 : (a ++ b).data = (a ++ c).data := by rw [h]
  rw [String.data_append, String.data_append] at h1
  exact String.ext (List.append_cancel_left h1)

theorem Itoa_inj (x y : Int) (h : Itoa x = Itoa y) : x = y := by
  cases x with
  | ofNat a =>
    cases y with
    | ofNat b => simp only [Itoa] at h; rw [Nat_repr_inj a b h]
    | negSucc b =>
      exfalso
      simp only [Itoa] at h
      have h1 : '-' ∈ (Nat.repr a).data := by rw [h, String.data_append]; simp
      exact Nat_repr_no_minus a h1
  | negSucc a =>
    cases y with
    | ofNat b =>
      exfalso
      simp only [Itoa] at h
      have h1 : '-' ∈ (Nat.repr b).data := by rw [← h, String.data_append]; simp
      exact Nat_repr_no_minus b h1
    | negSucc b =>
      simp only [Itoa] at h
      have := Nat_repr_inj _ _ (str_append_left_cancel _ _ _ h)
      have hab : a = b := by omega
      rw [hab]

theorem intOfUint_inj (i j : Nat) (hi : i < 2 ^ 64) (hj : j < 2 ^ 64)
    (h : intOfUint i = intOfUint j) : i = j := by
  simp only [intOfUint, wrap64] at h
  norm_num at hi hj h
  omega

theorem archPath_inj (f : __FILE) (i j : Nat) (hi : i < 2 ^ 64) (hj : j < 2 ^ 64)
    (h : archPath f i = archPath f j) : i = j := by
  simp only [archPath] at h
  exact intOfUint_inj i j hi hj (Itoa_inj _ _ (str_append_left_cancel _ _ _ h))

theorem str_ne_append_dot (a b : String) : a ≠ a ++ "." ++ b := by
  intro h
  have h1 : a.length = (a ++ "." ++ b).length := by rw [← h]
  simp only [String.length_append] at h1
  have : ".".length = 1 := by decide
  omega

theorem activePath_ne_archPath (f : __FILE) (i : Nat) : activePath f ≠ archPath f i := by
  simp only [activePath, archPath]
  exact str_ne_append_dot _ _

theorem activePath_ne_datePath (f : __FILE) (d : Int) : activePath f ≠ datePath f d := by
  simp only [activePath, datePath]
  exact str_ne_append_dot _ _

theorem archPath_one (f : __FILE) :
    f.dir ++ "/" ++ f.fname ++ "." ++ Itoa 1 = archPath f 1 := by
  simp only [archPath]
  have : intOfUint 1 = 1 := by decide
  rw [this]


/-! ## File system lemmas -/

theorem FS.set_same (fs : FS) (p : String) (v : Option Node) : fs.set p v p = v := by
  simp [FS.set]

theorem FS.set_other (fs : FS) (p q : String) (v : Option Node) (h : q ≠ p) :
    fs.set p v q = fs q := by
  simp [FS.set, h]

theorem shiftArchives_other (f : __FILE) (n : Nat) (p : String)
    (hp : ∀ i, p ≠ archPath f i) :
    ∀ (k : Nat) (fs : FS), shiftArchives f n k fs p = fs p := by
  intro k
  induction k with
  | zero => intro fs; rfl
  | succ k ih =>
    intro fs
    simp only [shiftArchives]
    rw [ih]
    by_cases hn : k + 1 = n
    · rw [if_pos hn]
      by_cases he : isExist fs (archPath f (k + 1)) = true
      · rw [if_pos he]
        simp only [isExist, Option.isSome_iff_exists] at he
        obtain ⟨v, hv⟩ := he
        simp only [osRemove, hv]
        exact FS.set_other _ _ _ _ (hp _)
      · rw [if_neg he]
    · rw [if_neg hn]
      by_cases he : isExist fs (archPath f (k + 1)) = true
      · rw [if_pos he]
        simp only [isExist, Option.isSome_iff_exists] at he
        obtain ⟨v, hv⟩ := he
        simp only [osRename, hv]
        rw [FS.set_other _ _ _ _ (hp _), FS.set_other _ _ _ _ (hp _)]
      · rw [if_neg he]

theorem mode_ne : _FILE ≠ _DATE ∧ _NULL ≠ _DATE ∧ _NULL ≠ _FILE := by decide

theorem rename_size_active (ctx : Ctx) (s : Sys) (f : __FILE)
    (hmode : s.log.rollWay = _FILE) (hobj : s.log.logObj = some f)
    (hlogf : f.logf = some (activePath f)) (hfile : (s.fs (activePath f)).isSome) :
    (rename ctx s).panic = none ∧
    (rename ctx s).sys.fs (activePath f) = some (Node.file []) := by
  obtain ⟨v, hv⟩ := Option.isSome_iff_exists.1 hfile
  have hact : f.dir ++ "/" ++ f.fname = activePath f := rfl
  have hone : activePath f ++ "." ++ Itoa 1 = archPath f 1 := archPath_one f
  simp only [rename, hmode, mode_ne.1, if_false, if_true, hobj, reopen, hact, hone, true_and]
  by_cases h1 : s.log.maxFileCount = 1
  · simp only [h1, if_true, hlogf, osRemove, hv, osCreate, FS.set_same]
  · have hsh : shiftArchives f s.log.maxFileCount s.log.maxFileCount s.fs (activePath f)
        = some v := by
      rw [shiftArchives_other f _ _ (fun i => activePath_ne_archPath f i), hv]
    simp only [h1, if_false, osRename, hsh, osCreate]
    rw [FS.set_other _ _ _ _ (activePath_ne_archPath f 1)]
    simp only [FS.set_same]


/-! ## Writes do not rotate -/

/-- C1 (amended): on a size-mode logger whose active file has reached
`maxFileSize`, a leveled write that passes the level gate performs no
rotation: it does not panic, leaves the logger (mode, handle, writer) and
every other path as they were, and appends its line to the existing active
file (followed by the `Console` copy when `console` is set).  The rotation is
made by the monitor: `fileCheck` is then exactly one `rename`, which leaves
an empty active file. -/
theorem leveled_write_appends_without_rotation
    (ctx : Ctx) (lvl : Int) (tag args : String) (s : Sys) (f : __FILE) (w : LogWriter)
    (data : List String)
    (hmode : s.log.rollWay = _FILE) (hobj : s.log.logObj = some f)
    (hlg : f.lg = some w) (hlogf : f.logf = some (activePath f))
    (hfile : s.fs (activePath f) = some (Node.file data))
    (hsize : getFileSize s.fs (activePath f) ≥ s.log.maxFileSize)
    (hlvl : ¬ s.log.level > lvl) :
    (leveled lvl tag ctx args s).panic = none ∧
    (leveled lvl tag ctx args s).sys.log = s.log ∧
    (∀ p, p ≠ activePath f → (leveled lvl tag ctx args s).sys.fs p = s.fs p) ∧
    (leveled lvl tag ctx args s).sys.fs (activePath f) =
      some (Node.file (data ++ outputRec ctx tag args ::
        (if s.log.console then
          [printlnRec ctx "210" (ctx.site ++ " " ++ ("[" ++ tag ++ " " ++ args ++ "]"))]
         else []))) ∧
    fileCheck ctx s = rename ctx s ∧
    (rename ctx s).sys.fs (activePath f) = some (Node.file []) := by
  have hren := rename_size_active ctx s f hmode hobj hlogf (by rw [hfile]; rfl)
  have hact : f.dir ++ "/" ++ f.fname = activePath f := rfl
  refine ⟨?_, ?_, ?_, ?_, ?_, hren.2⟩
  · cases hc : s.log.console <;>
      simp [leveled, hlvl, writeBody, hobj, lgWrite, hlg, hlogf, Console, hc, catchError]
  · cases hc : s.log.console <;>
      simp [leveled, hlvl, writeBody, hobj, lgWrite, hlg, hlogf, Console, hc, catchError]
  · intro p hp
    cases hc : s.log.console <;>
      simp [leveled, hlvl, writeBody, hobj, lgWrite, hlg, hlogf, Console, hc, catchError,
        fsAppend, hfile, FS.set_same, FS.set_other _ _ _ _ hp]
  · cases hc : s.log.console <;>
      simp [leveled, hlvl, writeBody, hobj, lgWrite, hlg, hlogf, Console, hc, catchError,
        fsAppend, hfile, FS.set_same]
  · have hm : (isMustRename ctx.now s) = ⟨s, none, true⟩ := by
      simp only [isMustRename, hmode, mode_ne.1, if_false, if_true, hobj, hact]
      rw [if_pos hsize]
    simp only [fileCheck, hobj, hm, if_true]
    rw [hren.1]

set_option maxRecDepth 100000 in
/-- C1 (witness): the amended statement at the full sample sink. -/
theorem leveled_write_appends_without_rotation_witness :
    (Error demoCtx "[y]" fullSink).panic = none ∧
    (Error demoCtx "[y]" fullSink).sys.log = fullSink.log ∧
    fileCheck demoCtx fullSink = rename demoCtx fullSink :=
  have h := leveled_write_appends_without_rotation demoCtx ERROR "error:" "[y]" fullSink
    demoFile ⟨false⟩ ["\n2024/03/10 12:00:00 main.go:7: error: [x]\n"]
    (by decide) (by decide) (by decide) (by decide) (by decide) (by decide) (by decide)
  ⟨h.1, h.2.1, h.2.2.2.2.1⟩

set_option maxRecDepth 100000 in
/-- C1 (counterexample): the sample sink is in size mode, its active file has
reached `maxFileSize` and `Error` passes the level gate; yet after
`Error "[y]"` no archive `logs/a.log.1` exists and the line sits in the old
active file behind the record that filled it.  Had one rotation come first,
the line would be alone in a fresh file. -/
theorem write_at_full_size_does_not_rotate :
    fullSink.log.rollWay = _FILE ∧
    getFileSize fullSink.fs "logs/a.log" ≥ fullSink.log.maxFileSize ∧
    ¬ fullSink.log.level > ERROR ∧
    (Error demoCtx "[y]" fullSink).sys.fs "logs/a.log.1" = none ∧
    (Error demoCtx "[y]" fullSink).sys.fs "logs/a.log" =
      some (Node.file ["\n2024/03/10 12:00:00 main.go:7: error: [x]\n",
                       "\n2024/03/10 12:00:00 main.go:7: error: [y]\n"]) ∧
    (Error demoCtx "[y]" (rename demoCtx fullSink).sys).sys.fs "logs/a.log" =
      some (Node.file ["\n2024/03/10 12:00:00 main.go:7: error: [y]\n"]) := by
  decide

/-! ## Shifting the generations -/

theorem archPath_ne (f : __FILE) (i j : Nat) (hi : i < 2 ^ 64) (hj : j < 2 ^ 64)
    (h : i ≠ j) : archPath f i ≠ archPath f j :=
  fun e => h (archPath_inj f i j hi hj e)

theorem shiftArchives_below (f : __FILE) (n : Nat) (hn : n < 2 ^ 64) :
    ∀ (k : Nat) (fs : FS), k < n → fs (archPath f (k + 1)) = none →
      (∀ j, 1 ≤ j → j ≤ k → shiftArchives f n k fs (archPath f (j + 1)) = fs (archPath f j)) ∧
      shiftArchives f n k fs (archPath f 1) = none ∧
      (∀ p, (∀ j, 1 ≤ j → j ≤ k + 1 → p ≠ archPath f j) → shiftArchives f n k fs p = fs p) := by
  intro k
  induction k with
  | zero =>
    intro fs _ hv
    refine ⟨fun j h1 h2 => by omega, hv, fun p _ => rfl⟩
  | succ k ih =>
    intro fs hk hv
    simp only [shiftArchives]
    rw [if_neg (by omega : ¬ k + 1 = n)]
    -- the state after the step at index k + 1
    have hstep : ∃ fs1 : FS,
        (if isExist fs (archPath f (k + 1)) = true then
          (osRename fs (archPath f (k + 1)) (archPath f (k + 1 + 1))).1 else fs) = fs1 ∧
        fs1 (archPath f (k + 1 + 1)) = fs (archPath f (k + 1)) ∧
        fs1 (archPath f (k + 1)) = none ∧
        (∀ p, p ≠ archPath f (k + 1) → p ≠ archPath f (k + 1 + 1) → fs1 p = fs p) := by
      by_cases he : isExist fs (archPath f (k + 1)) = true
      · rw [if_pos he]
        simp only [isExist, Option.isSome_iff_exists] at he
        obtain ⟨v, hv1⟩ := he
        refine ⟨_, rfl, ?_, ?_, ?_⟩
        · simp only [osRename, hv1, FS.set_same]
        · simp only [osRename, hv1]
          rw [FS.set_other _ _ _ _ (archPath_ne f _ _ (by omega) (by omega) (by omega)),
            FS.set_same]
        · intro p h1 h2
          simp only [osRename, hv1]
          rw [FS.set_other _ _ _ _ h2, FS.set_other _ _ _ _ h1]
      · rw [if_neg he]
        have hnone : fs (archPath f (k + 1)) = none := by
          simpa [isExist] using he
        exact ⟨fs, rfl, by rw [hv, hnone], hnone, fun p _ _ => rfl⟩
    obtain ⟨fs1, hfs1, h_up, h_vac, h_oth⟩ := hstep
    rw [hfs1]
    obtain ⟨ih1, ih2, ih3⟩ := ih fs1 (by omega) h_vac
    refine ⟨?_, ih2, ?_⟩
    · intro j hj1 hj2
      by_cases hjk : j = k + 1
      · subst hjk
        rw [ih3 _ (fun i hi1 hi2 => archPath_ne f _ _ (by omega) (by omega) (by omega)), h_up]
      · rw [ih1 j hj1 (by omega)]
        exact h_oth _ (archPath_ne f _ _ (by omega) (by omega) (by omega))
          (archPath_ne f _ _ (by omega) (by omega) (by omega))
    · intro p hp
      rw [ih3 p (fun j hj1 hj2 => hp j hj1 (by omega))]
      exact h_oth p (hp _ (by omega) (by omega)) (hp _ (by omega) (by omega))

theorem shiftArchives_full (f : __FILE) (n : Nat) (hn : n < 2 ^ 64) (hn1 : 1 ≤ n) (fs : FS) :
    (∀ j, 1 ≤ j → j < n → shiftArchives f n n fs (archPath f (j + 1)) = fs (archPath f j)) ∧
    shiftArchives f n n fs (archPath f 1) = none ∧
    (∀ p, (∀ j, 1 ≤ j → j ≤ n → p ≠ archPath f j) → shiftArchives f n n fs p = fs p) := by
  obtain ⟨m, rfl⟩ : ∃ m, n = m + 1 := ⟨n - 1, by omega⟩
  simp only [shiftArchives, if_true]
  have hstep : ∃ fs1 : FS,
      (if isExist fs (archPath f (m + 1)) = true then
        (osRemove fs (archPath f (m + 1))).1 else fs) = fs1 ∧
      fs1 (archPath f (m + 1)) = none ∧
      (∀ p, p ≠ archPath f (m + 1) → fs1 p = fs p) := by
    by_cases he : isExist fs (archPath f (m + 1)) = true
    · rw [if_pos he]
      simp only [isExist, Option.isSome_iff_exists] at he
      obtain ⟨v, hv1⟩ := he
      refine ⟨_, rfl, ?_, ?_⟩
      · simp only [osRemove, hv1, FS.set_same]
      · intro p h1
        simp only [osRemove, hv1]
        rw [FS.set_other _ _ _ _ h1]
    · rw [if_neg he]
      exact ⟨fs, rfl, by simpa [isExist] using he, fun p _ => rfl⟩
  obtain ⟨fs1, hfs1, h_vac, h_oth⟩ := hstep
  rw [hfs1]
  obtain ⟨ih1, ih2, ih3⟩ := shiftArchives_below f (m + 1) hn m fs1 (by omega) h_vac
  refine ⟨?_, ih2, ?_⟩
  · intro j hj1 hj2
    rw [ih1 j hj1 (by omega)]
    exact h_oth _ (archPath_ne f _ _ (by omega) (by omega) (by omega))
  · intro p hp
    rw [ih3 p hp]
    exact h_oth p (hp _ (by omega) (by omega))


theorem foldl_fsAppend (h : String) : ∀ (recs : List String) (fs : FS) (d : List String),
    fs h = some (Node.file d) →
    (recs.foldl (fun a r => fsAppend a h r) fs) h = some (Node.file (d ++ recs)) ∧
    ∀ p, p ≠ h → (recs.foldl (fun a r => fsAppend a h r) fs) p = fs p := by
  intro recs
  induction recs with
  | nil => intro fs d hd; simp [hd]
  | cons r rs ih =>
    intro fs d hd
    simp only [List.foldl_cons]
    have h1 : fsAppend fs h r h = some (Node.file (d ++ [r])) := by
      simp only [fsAppend, hd, FS.set_same]
    obtain ⟨ih1, ih2⟩ := ih (fsAppend fs h r) (d ++ [r]) h1
    refine ⟨by rw [ih1]; simp, ?_⟩
    intro p hp
    rw [ih2 p hp]
    simp only [fsAppend, hd]
    exact FS.set_other _ _ _ _ hp

theorem archPath_congr (f g : __FILE) (hd : g.dir = f.dir) (hf : g.fname = f.fname) (i : Nat) :
    archPath g i = archPath f i := by
  simp only [archPath, hd, hf]

theorem activePath_congr (f g : __FILE) (hd : g.dir = f.dir) (hf : g.fname = f.fname) :
    activePath g = activePath f := by
  simp only [activePath, hd, hf]

theorem rename_size_step (ctx : Ctx) (s : Sys) (f : __FILE)
    (hmode : s.log.rollWay = _FILE) (hobj : s.log.logObj = some f)
    (hn2 : 2 ≤ s.log.maxFileCount) (hn : s.log.maxFileCount < 2 ^ 64) :
    (rename ctx s).panic = none ∧
    (rename ctx s).sys.log =
      { s.log with logObj := some { f with logf := some (activePath f),
                                           lg := some ⟨s.log.console⟩ } } ∧
    (rename ctx s).sys.fs (activePath f) = some (Node.file []) ∧
    (rename ctx s).sys.fs (archPath f 1) = s.fs (activePath f) ∧
    (∀ j, 1 ≤ j → j < s.log.maxFileCount →
      (rename ctx s).sys.fs (archPath f (j + 1)) = s.fs (archPath f j)) ∧
    (∀ p, p ≠ activePath f → (∀ j, 1 ≤ j → j ≤ s.log.maxFileCount → p ≠ archPath f j) →
      (rename ctx s).sys.fs p = s.fs p) := by
  have hact : f.dir ++ "/" ++ f.fname = activePath f := rfl
  have hone : activePath f ++ "." ++ Itoa 1 = archPath f 1 := archPath_one f
  have h1 : ¬ s.log.maxFileCount = 1 := by omega
  obtain ⟨sh1, sh2, sh3⟩ := shiftArchives_full f s.log.maxFileCount hn (by omega) s.fs
  have sh0 : shiftArchives f s.log.maxFileCount s.log.maxFileCount s.fs (activePath f)
      = s.fs (activePath f) :=
    shiftArchives_other f _ _ (fun i => activePath_ne_archPath f i) _ _
  -- the state after the final `os.Rename(active, active.1)`
  have hmv : ∃ fs1 : FS,
      (osRename (shiftArchives f s.log.maxFileCount s.log.maxFileCount s.fs)
        (activePath f) (archPath f 1)).1 = fs1 ∧
      fs1 (activePath f) = none ∧ fs1 (archPath f 1) = s.fs (activePath f) ∧
      (∀ p, p ≠ activePath f → p ≠ archPath f 1 →
        fs1 p = shiftArchives f s.log.maxFileCount s.log.maxFileCount s.fs p) := by
    cases hv : s.fs (activePath f) with
    | none =>
      refine ⟨_, rfl, ?_, ?_, ?_⟩
      · simp only [osRename, sh0, hv]
      · simp only [osRename, sh0, hv, sh2]
      · intro p _ _; simp only [osRename, sh0, hv]
    | some v =>
      refine ⟨_, rfl, ?_, ?_, ?_⟩
      · simp only [osRename, sh0, hv]
        rw [FS.set_other _ _ _ _ (activePath_ne_archPath f 1), FS.set_same]
      · simp only [osRename, sh0, hv, FS.set_same]
      · intro p hp1 hp2
        simp only [osRename, sh0, hv]
        rw [FS.set_other _ _ _ _ hp2, FS.set_other _ _ _ _ hp1]
  obtain ⟨fs1, hfs1, m1, m2, m3⟩ := hmv
  have hna : archPath f 1 ≠ activePath f := fun e => activePath_ne_archPath f 1 e.symm
  simp only [rename, hmode, mode_ne.1, if_false, if_true, hobj, reopen, hact, hone, h1, hfs1,
    osCreate, m1, true_and]
  refine ⟨FS.set_same _ _ _, ?_, ?_, ?_⟩
  · rw [FS.set_other _ _ _ _ hna, m2]
  · intro j hj1 hj2
    rw [FS.set_other _ _ _ _ (fun e => activePath_ne_archPath f _ e.symm),
      m3 _ (fun e => activePath_ne_archPath f _ e.symm)
        (archPath_ne f _ _ (by omega) (by omega) (by omega)),
      sh1 j hj1 hj2]
  · intro p hp1 hp2
    rw [FS.set_other _ _ _ _ hp1, m3 p hp1 (hp2 1 (by omega) (by omega)), sh3 p hp2]


theorem rotation_step (ctx : Ctx) (f : __FILE) (n : Nat) (hn2 : 2 ≤ n) (hn : n < 2 ^ 64)
    (base : FS) (hbase : ∀ i, base (archPath f i) = none)
    (s : Sys) (hist : List (List String)) (a w : List String)
    (hs : SizeSink f n s) (ha : Archived f n hist a base s.fs) :
    SizeSink f n (rename ctx (writeRecords w s)).sys ∧
    Archived f n ((a ++ w) :: hist) [] base (rename ctx (writeRecords w s)).sys.fs := by
  obtain ⟨hmode, hcount, g, hobj, hgd, hgf, hlogf⟩ := hs
  obtain ⟨a1, a2, a3⟩ := ha
  have pa : activePath g = activePath f := activePath_congr f g hgd hgf
  have pr : ∀ i, archPath g i = archPath f i := archPath_congr f g hgd hgf
  obtain ⟨w1, w2⟩ := foldl_fsAppend (activePath f) w s.fs a a1
  have hw : writeRecords w s =
      { s with fs := w.foldl (fun a r => fsAppend a (activePath f) r) s.fs } := by
    simp only [writeRecords, hobj, hlogf]
  have hwlog : (writeRecords w s).log = s.log := by rw [hw]
  have hwfs : (writeRecords w s).fs =
      w.foldl (fun a r => fsAppend a (activePath f) r) s.fs := by rw [hw]
  obtain ⟨_, r2, r3, r4, r5, r6⟩ := rename_size_step ctx (writeRecords w s) g
    (by rw [hwlog]; exact hmode) (by rw [hwlog]; exact hobj)
    (by rw [hwlog, hcount]; exact hn2) (by rw [hwlog, hcount]; exact hn)
  rw [hwlog, hcount] at r5 r6
  rw [hwlog] at r2
  rw [pa] at r3 r4 r6
  simp only [pr] at r4 r5 r6
  rw [hwfs] at r4 r5 r6
  refine ⟨⟨?_, ?_, ?_⟩, r3, ?_, ?_⟩
  · rw [r2]; exact hmode
  · rw [r2]; exact hcount
  · rw [r2]; exact ⟨_, rfl, hgd, hgf, by rw [pa]⟩
  · intro i hi1 hi2
    simp only [List.length_cons] at hi2
    by_cases hi : i = 1
    · subst hi
      rw [r4, w1]; simp
    · obtain ⟨j, rfl⟩ : ∃ j, i = j + 1 := ⟨i - 1, by omega⟩
      have hjn : j < n := by omega
      have hjl : j ≤ hist.length := by omega
      rw [r5 j (by omega) hjn, w2 _ (fun e => activePath_ne_archPath f _ e.symm),
        a2 j (by omega) (by omega)]
      obtain ⟨j0, rfl⟩ : ∃ j0, j = j0 + 1 := ⟨j - 1, by omega⟩
      simp
  · intro p hp1 hp2
    simp only [List.length_cons] at hp2
    by_cases hex : ∃ j, 1 ≤ j ∧ j ≤ n ∧ p = archPath f j
    · obtain ⟨j, hj1, hj2, hpj⟩ := hex
      have hjbig : hist.length + 1 < j := by
        by_contra hc
        exact hp2 j hj1 (by omega) hpj
      rw [hpj]
      obtain ⟨j0, rfl⟩ : ∃ j0, j = j0 + 1 := ⟨j - 1, by omega⟩
      rw [r5 j0 (by omega) (by omega), w2 _ (fun e => activePath_ne_archPath f _ e.symm),
        hbase (j0 + 1),
        a3 _ (fun e => activePath_ne_archPath f _ e.symm)
          (fun i hi1 hi2 => archPath_ne f _ _ (by omega) (by omega) (by omega))]
      exact hbase j0
    · have hnot : ∀ j, 1 ≤ j → j ≤ n → p ≠ archPath f j :=
        fun j hj1 hj2 e => hex ⟨j, hj1, hj2, e⟩
      rw [r6 p hp1 hnot, w2 p hp1]
      exact a3 p hp1 (fun i hi1 hi2 => hnot i hi1 (by omega))

theorem rotations_archived (ctx : Ctx) (f : __FILE) (n : Nat) (hn2 : 2 ≤ n) (hn : n < 2 ^ 64)
    (base : FS) (hbase : ∀ i, base (archPath f i) = none) :
    ∀ (ws : List (List String)) (s : Sys) (hist : List (List String)) (a w : List String),
      SizeSink f n s → Archived f n hist a base s.fs →
      SizeSink f n (rotations ctx ws (rename ctx (writeRecords w s)).sys) ∧
      Archived f n (ws.reverse ++ (a ++ w) :: hist) [] base
        (rotations ctx ws (rename ctx (writeRecords w s)).sys).fs := by
  intro ws
  induction ws with
  | nil =>
    intro s hist a w hs ha
    have := rotation_step ctx f n hn2 hn base hbase s hist a w hs ha
    simpa [rotations] using this
  | cons v vs ih =>
    intro s hist a w hs ha
    obtain ⟨hs1, ha1⟩ := rotation_step ctx f n hn2 hn base hbase s hist a w hs ha
    have := ih (rename ctx (writeRecords w s)).sys ((a ++ w) :: hist) [] v hs1 ha1
    simpa [rotations] using this


theorem dir_ne_archPath (f : __FILE) (i : Nat) : f.dir ≠ archPath f i := by
  intro h
  have h1 : f.dir.length = (archPath f i).length := by rw [← h]
  simp only [archPath, String.length_append] at h1
  have : "/".length = 1 := by decide
  omega

set_option maxRecDepth 100000 in
theorem fullSink_log : fullSink.log =
    { level := ERROR, maxFileSize := 1, maxFileCount := 3, rollDay := 0, rollWay := _FILE,
      console := false, logObj := some demoFile } := by
  decide

set_option maxRecDepth 100000 in
theorem fullSink_fs : fullSink.fs =
    ((FS.empty.set "logs" (some Node.dir)).set "logs/a.log" (some (Node.file []))).set
      "logs/a.log" (some (Node.file ["\n2024/03/10 12:00:00 main.go:7: error: [x]\n"])) := by
  rfl

theorem fullSink_no_archive (i : Nat) : fullSink.fs (archPath demoFile i) = none := by
  have h1 : archPath demoFile i ≠ "logs/a.log" :=
    fun e => activePath_ne_archPath demoFile i e.symm
  have h2 : archPath demoFile i ≠ "logs" := fun e => dir_ne_archPath demoFile i e.symm
  rw [fullSink_fs, FS.set_other _ _ _ _ h1, FS.set_other _ _ _ _ h1, FS.set_other _ _ _ _ h2]
  rfl

/-- C2: a size-mode sink keeping `n ≥ 2` generations, with no archive present
at the start, after `k ≥ 1` consecutive rotations (`rename`), the active file
holding `d0 ++ w` at the first and the blocks of `ws` at the later ones: the
active file is empty; archive `i`, for `1 ≤ i ≤ min k n`, holds the content
the active file had at rotation `k - i + 1`; no other archive name exists,
so content pushed beyond generation `n` is gone; any other path is
untouched. -/
theorem rotations_keep_latest_generations
    (ctx : Ctx) (s : Sys) (f : __FILE) (n : Nat) (d0 w : List String)
    (ws : List (List String))
    (hmode : s.log.rollWay = _FILE) (hobj : s.log.logObj = some f)
    (hlogf : f.logf = some (activePath f))
    (hcount : s.log.maxFileCount = n) (hn2 : 2 ≤ n) (hn : n < 2 ^ 64)
    (hactive : s.fs (activePath f) = some (Node.file d0))
    (hnoarch : ∀ i, s.fs (archPath f i) = none) :
    (rotations ctx (w :: ws) s).fs (activePath f) = some (Node.file []) ∧
    (∀ i, 1 ≤ i → i ≤ min (ws.length + 1) n →
      ∃ c, ((d0 ++ w) :: ws)[ws.length + 1 - i]? = some c ∧
        (rotations ctx (w :: ws) s).fs (archPath f i) = some (Node.file c)) ∧
    (∀ i, i < 2 ^ 64 → (i = 0 ∨ min (ws.length + 1) n < i) →
      (rotations ctx (w :: ws) s).fs (archPath f i) = none) ∧
    (∀ p, p ≠ activePath f →
      (∀ i, 1 ≤ i → i ≤ min (ws.length + 1) n → p ≠ archPath f i) →
      (rotations ctx (w :: ws) s).fs p = s.fs p) := by
  have h0 : Archived f n [] d0 s.fs s.fs :=
    ⟨hactive, fun i h1 h2 => by simp at h2; omega, fun p _ _ => rfl⟩
  have hsink : SizeSink f n s := ⟨hmode, hcount, f, hobj, rfl, rfl, hlogf⟩
  obtain ⟨_, a1, a2, a3⟩ :=
    rotations_archived ctx f n hn2 hn s.fs hnoarch ws s [] d0 w hsink h0
  have hlen : (ws.reverse ++ [d0 ++ w]).length = ws.length + 1 := by simp
  rw [hlen] at a2 a3
  have hrot : rotations ctx (w :: ws) s = rotations ctx ws (rename ctx (writeRecords w s)).sys :=
    rfl
  rw [hrot]
  refine ⟨a1, ?_, ?_, a3⟩
  · intro i hi1 hi2
    have hrev : ws.reverse ++ [d0 ++ w] = ((d0 ++ w) :: ws).reverse := by simp
    have hidx : (ws.reverse ++ [d0 ++ w])[i - 1]? = ((d0 ++ w) :: ws)[ws.length + 1 - i]? := by
      rw [hrev]
      exact List.getElem?_reverse' (i - 1) (ws.length + 1 - i) (by simp; omega)
    have hlt : ws.length + 1 - i < ((d0 ++ w) :: ws).length := by simp; omega
    refine ⟨((d0 ++ w) :: ws)[ws.length + 1 - i], List.getElem?_eq_getElem hlt, ?_⟩
    rw [a2 i hi1 hi2, hidx, List.getElem?_eq_getElem hlt]
    rfl
  · intro i hi hout
    rw [a3 _ (fun e => activePath_ne_archPath f _ e.symm)
      (fun j hj1 hj2 => archPath_ne f _ _ hi (by omega) (by omega))]
    exact hnoarch i


/-- C2 (witness): three generations, four rotations of the sample sink; the
blocks `b`, `c`, `d` end in archives 3, 2, 1, the record that filled the file
before the first rotation is gone, and no archive 4 exists. -/
theorem rotations_keep_latest_generations_witness :
    (rotations demoCtx [[], ["b"], ["c"], ["d"]] fullSink).fs (activePath demoFile)
      = some (Node.file []) ∧
    (rotations demoCtx [[], ["b"], ["c"], ["d"]] fullSink).fs (archPath demoFile 1)
      = some (Node.file ["d"]) ∧
    (rotations demoCtx [[], ["b"], ["c"], ["d"]] fullSink).fs (archPath demoFile 2)
      = some (Node.file ["c"]) ∧
    (rotations demoCtx [[], ["b"], ["c"], ["d"]] fullSink).fs (archPath demoFile 3)
      = some (Node.file ["b"]) ∧
    (rotations demoCtx [[], ["b"], ["c"], ["d"]] fullSink).fs (archPath demoFile 4) = none := by
  have h := rotations_keep_latest_generations demoCtx fullSink demoFile 3
    ["\n2024/03/10 12:00:00 main.go:7: error: [x]\n"] [] [["b"], ["c"], ["d"]]
    (by rw [fullSink_log]) (by rw [fullSink_log]) rfl (by rw [fullSink_log]) (by decide)
    (by norm_num) (by rw [fullSink_fs]; rfl) fullSink_no_archive
  obtain ⟨h1, h2, h3, _⟩ := h
  refine ⟨h1, ?_, ?_, ?_, h3 4 (by norm_num) (Or.inr (by decide))⟩
  · obtain ⟨c, hc, e⟩ := h2 1 (by decide) (by decide)
    simp at hc
    rw [e, ← hc]
  · obtain ⟨c, hc, e⟩ := h2 2 (by decide) (by decide)
    simp at hc
    rw [e, ← hc]
  · obtain ⟨c, hc, e⟩ := h2 3 (by decide) (by decide)
    simp at hc
    rw [e, ← hc]


/-! ## Console flag and the file -/

set_option maxRecDepth 100000 in
/-- C3 (code at the failing input): the same configuration and the same single
`Error "[x]"`, once with `SetConsole(true)` and once with `SetConsole(false)`:
with the console on the log file holds two records, the line and the copy
`Console` prints through the file writer; with the console off it holds the
line alone. -/
theorem console_flag_changes_file_content :
    mirroredSink.fs "logs/a.log" =
      some (Node.file ["\n2024/03/10 12:00:00 main.go:7: error: [x]\n",
                       "\n2024/03/10 12:00:00 logger.go:210: main.go:7 [error: [x]]\n"]) ∧
    fullSink.fs "logs/a.log" =
      some (Node.file ["\n2024/03/10 12:00:00 main.go:7: error: [x]\n"]) ∧
    mirroredSink.stderr =
      ["\n2024/03/10 12:00:00 main.go:7: error: [x]\n",
       "\n2024/03/10 12:00:00 logger.go:210: main.go:7 [error: [x]]\n"] ∧
    fullSink.stderr = [] := by
  decide

/-! ## Date mode: a rotation onto an existing archive -/

theorem rename_keeps_rollWay (ctx : Ctx) (s : Sys) :
    (rename ctx s).sys.log.rollWay = s.log.rollWay := by
  unfold rename
  by_cases hd : s.log.rollWay = _DATE
  · rw [if_pos hd]
    cases h1 : s.log.logObj with
    | none => rfl
    | some f =>
      simp only []
      cases h2 : f.date with
      | none => rfl
      | some d =>
        simp only []
        split_ifs <;> rfl
  · rw [if_neg hd]
    by_cases hf : s.log.rollWay = _FILE
    · rw [if_pos hf]
      cases h1 : s.log.logObj <;> rfl
    · rw [if_neg hf]

/-- C4: in date mode, when a file with the archive name of the boundary
(`base.<boundary - 1 day>`) exists, `rename` returns the state it was given,
without a panic: boundary, handle, writer and every file are as before.
Hence a rotation that follows another and computes the name of an archive
that exists after the first changes nothing, the archive included. -/
theorem rename_date_existing_archive_noop (ctx : Ctx) (s : Sys) (f : __FILE) (d : Int)
    (hmode : s.log.rollWay = _DATE) (hobj : s.log.logObj = some f)
    (hdate : f.date = some d) :
    (isExist s.fs (datePath f d) = true → rename ctx s = ⟨s, none⟩) ∧
    (∀ (ctx2 : Ctx) (f1 : __FILE) (d1 : Int),
      (rename ctx s).sys.log.logObj = some f1 → f1.date = some d1 →
      datePath f1 d1 = datePath f d →
      isExist (rename ctx s).sys.fs (datePath f d) = true →
      rename ctx2 (rename ctx s).sys = ⟨(rename ctx s).sys, none⟩) := by
  have key : ∀ (c : Ctx) (t : Sys) (g : __FILE) (e : Int), t.log.rollWay = _DATE →
      t.log.logObj = some g → g.date = some e → isExist t.fs (datePath g e) = true →
      rename c t = ⟨t, none⟩ := by
    intro c t g e h1 h2 h3 h4
    have hp : g.dir ++ "/" ++ g.fname ++ "." ++ formatDate (e - 1) = datePath g e := rfl
    simp only [rename, h1, if_true, h2, h3, hp, h4, Bool.not_true, Bool.false_eq_true, if_false]
  refine ⟨key ctx s f d hmode hobj hdate, ?_⟩
  intro ctx2 f1 d1 h1 h2 h3 h4
  exact key ctx2 _ f1 d1 (by rw [rename_keeps_rollWay]; exact hmode) h1 h2 (by rw [h3]; exact h4)

set_option maxRecDepth 100000 in
/-- C4 (witness): the rotated sample sink has boundary 2024-03-11 and the
archive `logs/a.log.2024-03-10` exists; a further rotation is a no-op. -/
theorem rename_date_existing_archive_noop_witness :
    isExist rotatedDateSink.fs "logs/a.log.2024-03-10" = true ∧
    rename demoCtx rotatedDateSink = ⟨rotatedDateSink, none⟩ :=
  ⟨by decide,
   (rename_date_existing_archive_noop demoCtx rotatedDateSink
      { demoFile with date := some 19793 } 19793 (by decide) (by decide) rfl).1 (by decide)⟩

/-! ## Recovery of faults in a write -/

/-- C5 (code at the failing input): on a logger fresh from `NewLogger`, with
no rotation mode configured, `Error` and `Fatal` pass the level gate, the
lock access dereferences the nil `logObj`, and the deferred `catchError`
dereferences it again while reporting: the call ends in a panic that reaches
the caller. -/
theorem write_on_unconfigured_logger_panics (ctx : Ctx) (args : String) (fs : FS) :
    (Error ctx args (Sys.init fs)).panic = some nilDeref ∧
    (Fatal ctx args (Sys.init fs)).panic = some nilDeref := by
  constructor <;> rfl


/-! ## Configuration is fixed by the first call -/

theorem lgWrite_log (rec : String) (s : Sys) : (lgWrite rec s).sys.log = s.log := by
  unfold lgWrite
  cases s.log.logObj with
  | none => rfl
  | some f =>
    simp only []
    cases f.lg with
    | none => rfl
    | some w =>
      simp only []
      cases f.logf <;> rfl

theorem Console_log (ctx : Ctx) (c a : String) (s : Sys) :
    (Console ctx c a s).sys.log = s.log := by
  unfold Console
  split_ifs
  · exact lgWrite_log _ _
  · rfl

theorem leveled_log (lvl : Int) (tag : String) (ctx : Ctx) (args : String) (s : Sys) :
    (leveled lvl tag ctx args s).sys.log = s.log := by
  have hbody : (writeBody ctx tag args s).sys.log = s.log := by
    unfold writeBody
    cases s.log.logObj with
    | none => rfl
    | some f =>
      simp only []
      cases hp : (lgWrite (outputRec ctx tag args) s).panic with
      | some v => exact lgWrite_log _ _
      | none =>
        simp only []
        rw [Console_log, lgWrite_log]
  unfold leveled
  split_ifs
  · rfl
  · unfold catchError
    cases hp : (writeBody ctx tag args s).panic with
    | none => exact hbody
    | some v =>
      simp only []
      rw [lgWrite_log, hbody]

theorem isMustRename_sys (now : Int) (s : Sys) : (isMustRename now s).sys = s := by
  unfold isMustRename
  by_cases hd : s.log.rollWay = _DATE
  · rw [if_pos hd]
    cases s.log.logObj with
    | none => rfl
    | some f =>
      simp only []
      cases f.date with
      | none => rfl
      | some d =>
        simp only []
        split_ifs <;> rfl
  · rw [if_neg hd]
    by_cases hf : s.log.rollWay = _FILE
    · rw [if_pos hf]
      cases s.log.logObj with
      | none => rfl
      | some f =>
        simp only []
        split_ifs <;> rfl
    · rw [if_neg hf]

theorem fileCheck_rollWay (ctx : Ctx) (s : Sys) :
    (fileCheck ctx s).sys.log.rollWay = s.log.rollWay := by
  have hbody : ∀ b : Res,
      b.sys.log.rollWay = s.log.rollWay →
      (match b.panic with
        | none => b
        | some v => lgWrite (printlnRec ctx "387" v) b.sys).sys.log.rollWay = s.log.rollWay := by
    intro b hb
    cases b.panic with
    | none => exact hb
    | some v => simp only []; rw [lgWrite_log, hb]
  unfold fileCheck
  apply hbody
  cases s.log.logObj with
  | none => rfl
  | some f =>
    simp only []
    cases (isMustRename ctx.now s).panic with
    | some v => simp only []; rw [isMustRename_sys]
    | none =>
      simp only []
      split_ifs
      · rw [rename_keeps_rollWay, isMustRename_sys]
      · simp only []; rw [isMustRename_sys]

theorem SetRollFile_set (ctx : Ctx) (dir name : String) (a b : Nat) (u : Int) (s : Sys)
    (hset : s.log.rollWay ≠ _NULL) : (SetRollFile ctx dir name a b u s).sys = s := by
  unfold SetRollFile
  split_ifs <;> rfl

theorem SetRollDate_set (ctx : Ctx) (dir name : String) (i : Nat) (s : Sys)
    (hset : s.log.rollWay ≠ _NULL) : (SetRollDate ctx dir name i s).sys = s := by
  unfold SetRollDate
  split_ifs <;> rfl

theorem Call_run_rollWay (ctx : Ctx) (c : Call) (s : Sys) (hset : s.log.rollWay ≠ _NULL) :
    (c.run ctx s).sys.log.rollWay = s.log.rollWay := by
  cases c with
  | setConsole b => rfl
  | setLevel l => simp only [Call.run, SetLevel]; split_ifs <;> rfl
  | setRollFile d n a b u => simp only [Call.run]; rw [SetRollFile_set _ _ _ _ _ _ _ hset]
  | setRollDate d n i => simp only [Call.run]; rw [SetRollDate_set _ _ _ _ _ hset]
  | console a => simp only [Call.run]; rw [Console_log]
  | debug a => simp only [Call.run, Debug]; rw [leveled_log]
  | info a => simp only [Call.run, Info]; rw [leveled_log]
  | warn a => simp only [Call.run, Warn]; rw [leveled_log]
  | error a => simp only [Call.run, Error]; rw [leveled_log]
  | fatal a => simp only [Call.run, Fatal]; rw [leveled_log]
  | tick => simp only [Call.run]; rw [fileCheck_rollWay]

theorem runCalls_rollWay : ∀ (cs : List (Ctx × Call)) (s : Sys), s.log.rollWay ≠ _NULL →
    (runCalls cs s).log.rollWay = s.log.rollWay := by
  intro cs
  induction cs with
  | nil => intro s _; rfl
  | cons c cs ih =>
    intro s hset
    have h1 := Call_run_rollWay c.1 c.2 s hset
    simp only [runCalls]
    rw [ih _ (by rw [h1]; exact hset), h1]

/-- C6: on a logger whose rotation mode is set, `SetRollFile` and
`SetRollDate` with valid arguments return the state they were given, without
a panic: `rollWay`, `maxFileSize`, `maxFileCount`, `rollDay`, the boundary
date, directory and base name, handle, writer and the files are unchanged.
And no sequence of calls (setters, writes, monitor ticks) changes the mode
once it is set. -/
theorem reconfiguration_is_noop (ctx : Ctx) (s : Sys) (hset : s.log.rollWay ≠ _NULL) :
    (∀ (dir name : String) (maxfilesize maxfilecount : Nat) (unit : Int),
      dir ≠ "" → name ≠ "" → maxfilesize ≠ 0 → maxfilecount ≠ 0 →
      SetRollFile ctx dir name maxfilesize maxfilecount unit s = ⟨s, none⟩) ∧
    (∀ (dir name : String) (interval : Nat),
      interval ≠ 0 → dir ≠ "" → name ≠ "" →
      SetRollDate ctx dir name interval s = ⟨s, none⟩) ∧
    (∀ cs : List (Ctx × Call), (runCalls cs s).log.rollWay = s.log.rollWay) := by
  refine ⟨?_, ?_, fun cs => runCalls_rollWay cs s hset⟩
  · intro dir name a b u h1 h2 h3 h4
    simp [SetRollFile, h1, h2, h3, h4, hset]
  · intro dir name i h1 h2 h3
    simp [SetRollDate, h1, h2, h3, hset]

/-- C6 (witness): the sample size-mode sink is left as it is by both setters
and keeps its mode through a run of calls. -/
theorem reconfiguration_is_noop_witness :
    fullSink.log.rollWay ≠ _NULL ∧
    SetRollDate demoCtx "other" "b.log" 7 fullSink = ⟨fullSink, none⟩ ∧
    (runCalls [(demoCtx, Call.setRollDate "other" "b.log" 7), (demoCtx, Call.tick),
      (demoCtx, Call.error "[y]")] fullSink).log.rollWay = fullSink.log.rollWay :=
  have hset : fullSink.log.rollWay ≠ _NULL := by rw [fullSink_log]; decide
  ⟨hset,
   (reconfiguration_is_noop demoCtx fullSink hset).2.1 "other" "b.log" 7
     (by decide) (by decide) (by decide),
   (reconfiguration_is_noop demoCtx fullSink hset).2.2 _⟩


/-! ## Which configuration calls fail -/

theorem rename_size_no_panic (ctx : Ctx) (s : Sys) (f : __FILE)
    (hmode : s.log.rollWay = _FILE) (hobj : s.log.logObj = some f) :
    (rename ctx s).panic = none := by
  simp only [rename, hmode, mode_ne.1, if_false, if_true, hobj]

theorem openOrRotate_size_no_panic (ctx : Ctx) (dir name : String) (g : __FILE) (s2 : Sys)
    (hmode : s2.log.rollWay = _FILE) (hobj : s2.log.logObj = some g) :
    (openOrRotate ctx dir name s2).panic = none := by
  have hm : (isMustRename ctx.now s2).panic = none := by
    simp only [isMustRename, hmode, mode_ne.1, if_false, if_true, hobj]
    split_ifs <;> rfl
  have hr : (rename ctx s2).panic = none := rename_size_no_panic ctx s2 g hmode hobj
  unfold openOrRotate
  simp only [hm, isMustRename_sys, hobj, hr]
  split_ifs <;> rfl

theorem openOrRotate_date_no_panic (ctx : Ctx) (dir name : String) (g : __FILE) (s2 : Sys)
    (hmode : s2.log.rollWay = _DATE) (hobj : s2.log.logObj = some g)
    (hdate : g.date = some (ctx.now + 1)) :
    (openOrRotate ctx dir name s2).panic = none := by
  have hm : isMustRename ctx.now s2 = ⟨s2, none, false⟩ := by
    simp only [isMustRename, hmode, if_true, hobj, hdate]
    rw [if_neg (by omega)]
  unfold openOrRotate
  simp only [hm, hobj]
  rfl

theorem startSink_size_no_panic (ctx : Ctx) (dir name : String) (s1 : Sys) (g : __FILE)
    (hmode : s1.log.rollWay = _FILE) (hobj : s1.log.logObj = some g) :
    (startSink ctx dir name s1).panic = none := by
  unfold startSink
  split_ifs
  · exact openOrRotate_size_no_panic ctx dir name g _ hmode hobj
  · exact openOrRotate_size_no_panic ctx dir name g _ hmode hobj

theorem startSink_date_no_panic (ctx : Ctx) (dir name : String) (s1 : Sys) (g : __FILE)
    (hmode : s1.log.rollWay = _DATE) (hobj : s1.log.logObj = some g)
    (hdate : g.date = some (ctx.now + 1)) :
    (startSink ctx dir name s1).panic = none := by
  unfold startSink
  split_ifs
  · exact openOrRotate_date_no_panic ctx dir name g _ hmode hobj hdate
  · exact openOrRotate_date_no_panic ctx dir name g _ hmode hobj hdate

/-- C7 (amended): in package `logger` a configuration call signals failure,
by a panic, exactly when an argument is invalid: `SetRollFile` if and only if
`dir` or `name` is empty or `maxfilesize` or `maxfilecount` is zero,
`SetRollDate` if and only if `interval` is zero or `dir` or `name` is empty.
A call with valid arguments on a logger whose mode is already set returns
normally and signals nothing. -/
theorem setters_fail_exactly_on_invalid_arguments (ctx : Ctx) (s : Sys)
    (dir name : String) (maxfilesize maxfilecount interval : Nat) (unit : Int) :
    ((SetRollFile ctx dir name maxfilesize maxfilecount unit s).panic ≠ none ↔
      (dir = "" ∨ name = "" ∨ maxfilesize = 0 ∨ maxfilecount = 0)) ∧
    ((SetRollDate ctx dir name interval s).panic ≠ none ↔
      (interval = 0 ∨ dir = "" ∨ name = "")) := by
  constructor
  · by_cases hbad : dir = "" ∨ name = "" ∨ maxfilesize = 0 ∨ maxfilecount = 0
    · have hp : (SetRollFile ctx dir name maxfilesize maxfilecount unit s).panic
          = some "Logger: SetRollFile error!" := by
        unfold SetRollFile; rw [if_pos hbad]
      exact ⟨fun _ => hbad, fun _ => by rw [hp]; exact fun h => by cases h⟩
    · have hp : (SetRollFile ctx dir name maxfilesize maxfilecount unit s).panic = none := by
        unfold SetRollFile
        rw [if_neg hbad]
        by_cases hset : s.log.rollWay ≠ _NULL
        · rw [if_pos hset]
        · rw [if_neg hset]
          exact startSink_size_no_panic _ _ _ _ _ rfl rfl
      exact ⟨fun h => absurd hp h, fun h => absurd h hbad⟩
  · by_cases hbad : interval = 0 ∨ dir = "" ∨ name = ""
    · have hp : (SetRollDate ctx dir name interval s).panic
          = some "Logger: SetRollData error!" := by
        unfold SetRollDate; rw [if_pos hbad]
      exact ⟨fun _ => hbad, fun _ => by rw [hp]; exact fun h => by cases h⟩
    · have hp : (SetRollDate ctx dir name interval s).panic = none := by
        unfold SetRollDate
        rw [if_neg hbad]
        by_cases hset : s.log.rollWay ≠ _NULL
        · rw [if_pos hset]
        · rw [if_neg hset]
          exact startSink_date_no_panic _ _ _ _ _ rfl rfl rfl
      exact ⟨fun h => absurd hp h, fun h => absurd h hbad⟩

set_option maxRecDepth 100000 in
/-- C7 (counterexample): the sample sink has its mode set, and both setters,
called with valid arguments, return without a panic: the call does not fail. -/
theorem reconfiguration_does_not_fail :
    fullSink.log.rollWay = _FILE ∧
    (SetRollFile demoCtx "logs" "b.log" 1 3 1 fullSink).panic = none ∧
    (SetRollDate demoCtx "logs" "b.log" 1 fullSink).panic = none := by
  decide


/-! ## Date mode: the boundary after a rotation -/

/-- C8 (amended): in date mode with boundary `d`, a rotation that is performed
(the archive name is not present) on day `ctx.now` ends without a panic and
sets the boundary to `ctx.now`, today, whatever `d` was; the new boundary is
`d + 1` only when today is `d + 1`. -/
theorem performed_date_rotation_sets_boundary_to_today (ctx : Ctx) (s : Sys) (f : __FILE)
    (d : Int) (w : LogWriter)
    (hmode : s.log.rollWay = _DATE) (hobj : s.log.logObj = some f)
    (hdate : f.date = some d) (hlg : f.lg = some w)
    (hnew : isExist s.fs (datePath f d) = false) :
    (rename ctx s).panic = none ∧
    boundary (rename ctx s).sys = some ctx.now ∧
    (boundary (rename ctx s).sys = some (d + 1) ↔ ctx.now = d + 1) := by
  have hp : f.dir ++ "/" ++ f.fname ++ "." ++ formatDate (d - 1) = datePath f d := rfl
  have hb : boundary (rename ctx s).sys = some ctx.now := by
    simp only [rename, hmode, if_true, hobj, hdate, hp, hnew, Bool.not_false, hlg, and_false,
      if_false, boundary, reopen, reduceCtorEq]
  refine ⟨?_, hb, ?_⟩
  · simp only [rename, hmode, if_true, hobj, hdate, hp, hnew, Bool.not_false, hlg, and_false,
      if_false, reduceCtorEq]
  · rw [hb]
    exact ⟨fun h => Option.some.inj h, fun h => by rw [h]⟩

set_option maxRecDepth 100000 in
/-- C8 (witness): the sample date sink, boundary 2024-03-11, rotated on
2024-03-12: the boundary becomes that day. -/
theorem performed_date_rotation_sets_boundary_to_today_witness :
    boundary dateSink = some 19793 ∧
    boundary (rename { demoCtx with now := 19794 } dateSink).sys = some 19794 :=
  ⟨by decide,
   (performed_date_rotation_sets_boundary_to_today { demoCtx with now := 19794 } dateSink
      { demoFile with date := some 19793 } 19793 ⟨false⟩
      (by decide) (by decide) rfl rfl (by decide)).2.1⟩

set_option maxRecDepth 100000 in
/-- C8 (counterexample): boundary `B` = 2024-03-11 (day 19793), rotation
performed on `T = B + 3`: the new boundary is `B + 3` (day 19796), not
`B + 1` (day 19794). -/
theorem boundary_jumps_to_today :
    dateSink.log.rollWay = _DATE ∧
    boundary dateSink = some 19793 ∧
    isExist dateSink.fs "logs/a.log.2024-03-10" = false ∧
    boundary (rename { demoCtx with now := 19796 } dateSink).sys = some 19796 ∧
    boundary (rename { demoCtx with now := 19796 } dateSink).sys ≠ some (19793 + 1) := by
  decide

/-! ## The rotation condition -/

/-- C9: `isMustRename` is the stated policy.  In size mode it answers true
exactly when the size of the active file, 0 when `os.Stat` fails, is at least
`maxFileSize`; in date mode exactly when today is strictly after the
boundary, so not on the boundary day; with no mode set it answers false.  It
does not panic on a configured logger, the answer does not depend on
`rollDay`, and the state is returned as it was. -/
theorem isMustRename_is_the_policy (now : Int) (s : Sys) :
    (∀ f, s.log.rollWay = _FILE → s.log.logObj = some f →
      (isMustRename now s).panic = none ∧
      ((isMustRename now s).val = true ↔
        getFileSize s.fs (activePath f) ≥ s.log.maxFileSize) ∧
      (s.fs (activePath f) = none → getFileSize s.fs (activePath f) = 0)) ∧
    (∀ f d, s.log.rollWay = _DATE → s.log.logObj = some f → f.date = some d →
      (isMustRename now s).panic = none ∧
      ((isMustRename now s).val = true ↔ now > d) ∧
      (now = d → (isMustRename now s).val = false)) ∧
    (s.log.rollWay = _NULL →
      (isMustRename now s).panic = none ∧ (isMustRename now s).val = false) ∧
    (∀ r : Nat,
      (isMustRename now { s with log := { s.log with rollDay := r } }).val
        = (isMustRename now s).val ∧
      (isMustRename now { s with log := { s.log with rollDay := r } }).panic
        = (isMustRename now s).panic) ∧
    (isMustRename now s).sys = s := by
  refine ⟨?_, ?_, ?_, ?_, isMustRename_sys now s⟩
  · intro f hmode hobj
    have hact : f.dir ++ "/" ++ f.fname = activePath f := rfl
    simp only [isMustRename, hmode, mode_ne.1, if_false, if_true, hobj, hact]
    refine ⟨?_, ?_, ?_⟩
    · split_ifs <;> rfl
    · split_ifs with h
      · simp [h]
      · simp [h]
    · intro hnone
      simp only [getFileSize, hnone]
  · intro f d hmode hobj hdate
    simp only [isMustRename, hmode, if_true, hobj, hdate]
    refine ⟨?_, ?_, ?_⟩
    · split_ifs <;> rfl
    · split_ifs with h
      · simp [h]
      · simp [h]
    · intro he
      rw [if_neg (by omega)]
  · intro hmode
    simp only [isMustRename, hmode, mode_ne.2.1, mode_ne.2.2, if_false, and_self]
  · intro r
    simp only [isMustRename]
    by_cases hd : s.log.rollWay = _DATE
    · simp only [hd, if_true]
      cases s.log.logObj with
      | none => exact ⟨rfl, rfl⟩
      | some f =>
        simp only []
        cases f.date with
        | none => exact ⟨rfl, rfl⟩
        | some d =>
          simp only []
          split_ifs <;> exact ⟨rfl, rfl⟩
    · simp only [hd, if_false]
      by_cases hf : s.log.rollWay = _FILE
      · simp only [hf, if_true]
        cases s.log.logObj with
        | none => exact ⟨rfl, rfl⟩
        | some f =>
          simp only []
          split_ifs <;> exact ⟨rfl, rfl⟩
      · simp only [hf, if_false, and_self]

set_option maxRecDepth 100000 in
/-- C9 (witness): the full sample sink must rotate; the date sink with
boundary 2024-03-11 must not on 2024-03-11 and must on 2024-03-12; a fresh
logger never must. -/
theorem isMustRename_is_the_policy_witness :
    (isMustRename 19792 fullSink).val = true ∧
    (isMustRename 19793 dateSink).val = false ∧
    (isMustRename 19794 dateSink).val = true ∧
    (isMustRename 19794 (Sys.init FS.empty)).val = false :=
  ⟨((isMustRename_is_the_policy 19792 fullSink).1 demoFile (by decide) (by decide)).2.1.2
      (by decide),
   ((isMustRename_is_the_policy 19793 dateSink).2.1 { demoFile with date := some 19793 } 19793
      (by decide) (by decide) rfl).2.2 rfl,
   ((isMustRename_is_the_policy 19794 dateSink).2.1 { demoFile with date := some 19793 } 19793
      (by decide) (by decide) rfl).2.1.2 (by decide),
   ((isMustRename_is_the_policy 19794 (Sys.init FS.empty)).2.2.1 rfl).2⟩


/-! ## One generation: rotation discards -/

theorem single_rotation_step (ctx : Ctx) (f : __FILE) (s : Sys) (a w : List String)
    (hs : SingleSink f s) (ha : s.fs (activePath f) = some (Node.file a)) :
    SingleSink f (rename ctx (writeRecords w s)).sys ∧
    (rename ctx (writeRecords w s)).sys.fs (activePath f) = some (Node.file []) ∧
    (∀ p, p ≠ activePath f → (rename ctx (writeRecords w s)).sys.fs p = s.fs p) := by
  obtain ⟨hmode, hcount, g, hobj, hgd, hgf, hlogf⟩ := hs
  have pa : g.dir ++ "/" ++ g.fname = activePath f := activePath_congr f g hgd hgf
  -- the state the writes leave
  have hw : ∃ b, (writeRecords w s).log = s.log ∧
      (writeRecords w s).fs (activePath f) = some (Node.file b) ∧
      (∀ p, p ≠ activePath f → (writeRecords w s).fs p = s.fs p) := by
    rcases hlogf with h | h
    · refine ⟨a, ?_, ?_, ?_⟩ <;> simp only [writeRecords, hobj, h]
      · exact ha
      · intro p _; trivial
    · obtain ⟨w1, w2⟩ := foldl_fsAppend (activePath f) w s.fs a ha
      refine ⟨a ++ w, ?_, ?_, ?_⟩ <;> simp only [writeRecords, hobj, h]
      · exact w1
      · exact w2
  obtain ⟨b, hl, hb, hrest⟩ := hw
  have hr : (rename ctx (writeRecords w s)).sys.log =
        { s.log with logObj := some { g with logf := some (activePath f),
                                             lg := some ⟨s.log.console⟩ } } ∧
      (rename ctx (writeRecords w s)).sys.fs (activePath f) = some (Node.file []) ∧
      (∀ p, p ≠ activePath f →
        (rename ctx (writeRecords w s)).sys.fs p = (writeRecords w s).fs p) := by
    rcases hlogf with h | h
    · simp only [rename, hl, hmode, mode_ne.1, if_false, if_true, hobj, hcount, h, reopen, pa,
        osCreate, hb, FS.set_same, true_and]
      exact fun p hp => FS.set_other _ _ _ _ hp
    · simp only [rename, hl, hmode, mode_ne.1, if_false, if_true, hobj, hcount, h, reopen, pa,
        osRemove, hb, osCreate, FS.set_same, true_and]
      intro p hp
      rw [FS.set_other _ _ _ _ hp, FS.set_other _ _ _ _ hp]
  obtain ⟨r1, r2, r3⟩ := hr
  refine ⟨⟨?_, ?_, ?_⟩, r2, fun p hp => by rw [r3 p hp, hrest p hp]⟩
  · rw [r1]; exact hmode
  · rw [r1]; exact hcount
  · rw [r1]; exact ⟨_, rfl, hgd, hgf, Or.inr rfl⟩

theorem single_rotations (ctx : Ctx) (f : __FILE) :
    ∀ (ws : List (List String)) (s : Sys) (a w : List String),
      SingleSink f s → s.fs (activePath f) = some (Node.file a) →
      (rotations ctx ws (rename ctx (writeRecords w s)).sys).fs (activePath f)
        = some (Node.file []) ∧
      (∀ p, p ≠ activePath f →
        (rotations ctx ws (rename ctx (writeRecords w s)).sys).fs p = s.fs p) := by
  intro ws
  induction ws with
  | nil =>
    intro s a w hs ha
    obtain ⟨_, h2, h3⟩ := single_rotation_step ctx f s a w hs ha
    exact ⟨h2, h3⟩
  | cons v vs ih =>
    intro s a w hs ha
    obtain ⟨h1, h2, h3⟩ := single_rotation_step ctx f s a w hs ha
    obtain ⟨i1, i2⟩ := ih (rename ctx (writeRecords w s)).sys [] v h1 h2
    exact ⟨i1, fun p hp => by rw [← h3 p hp]; exact i2 p hp⟩

/-- C10: a size-mode sink keeping one generation, with the active file and
no archive present, after any number `k ≥ 1` of rotations (`rename`): the
active file exists and is empty, no archive name exists, and every other path
is as it was, so what the active file held is in no file. -/
theorem single_generation_rotation_discards
    (ctx : Ctx) (s : Sys) (f : __FILE) (d0 w : List String) (ws : List (List String))
    (hmode : s.log.rollWay = _FILE) (hobj : s.log.logObj = some f)
    (hlogf : f.logf = none ∨ f.logf = some (activePath f))
    (hcount : s.log.maxFileCount = 1)
    (hactive : s.fs (activePath f) = some (Node.file d0))
    (hnoarch : ∀ i, s.fs (archPath f i) = none) :
    (rotations ctx (w :: ws) s).fs (activePath f) = some (Node.file []) ∧
    (∀ i, (rotations ctx (w :: ws) s).fs (archPath f i) = none) ∧
    (∀ p, p ≠ activePath f → (rotations ctx (w :: ws) s).fs p = s.fs p) := by
  obtain ⟨h1, h2⟩ := single_rotations ctx f ws s d0 w
    ⟨hmode, hcount, f, hobj, rfl, rfl, hlogf⟩ hactive
  have hrot : rotations ctx (w :: ws) s = rotations ctx ws (rename ctx (writeRecords w s)).sys :=
    rfl
  rw [hrot]
  refine ⟨h1, fun i => ?_, h2⟩
  rw [h2 _ (fun e => activePath_ne_archPath f i e.symm)]
  exact hnoarch i

set_option maxRecDepth 100000 in
theorem singleSink_log : singleSink.log =
    { level := ERROR, maxFileSize := 1, maxFileCount := 1, rollDay := 0, rollWay := _FILE,
      console := false, logObj := some demoFile } := by
  decide

set_option maxRecDepth 100000 in
theorem singleSink_fs : singleSink.fs = fullSink.fs := by
  rfl

/-- C10 (witness): the sample single-generation sink, rotated twice: the
active file is empty and no archive 1 exists. -/
theorem single_generation_rotation_discards_witness :
    (rotations demoCtx [[], ["b"]] singleSink).fs (activePath demoFile)
      = some (Node.file []) ∧
    (rotations demoCtx [[], ["b"]] singleSink).fs (archPath demoFile 1) = none :=
  have h := single_generation_rotation_discards demoCtx singleSink demoFile
    ["\n2024/03/10 12:00:00 main.go:7: error: [x]\n"] [] [["b"]]
    (by rw [singleSink_log]) (by rw [singleSink_log]) (Or.inr rfl) (by rw [singleSink_log])
    (by rw [singleSink_fs, fullSink_fs]; rfl)
    (fun i => by rw [singleSink_fs]; exact fullSink_no_archive i)
  ⟨h.1, h.2.1 1⟩


/-! ## Date mode: what a rotation keeps -/

theorem lgWriteOn_log (os : Refusals) (rec : String) (s : Sys) :
    (lgWriteOn os rec s).sys.log = s.log := by
  unfold lgWriteOn
  cases s.log.logObj with
  | none => rfl
  | some f =>
    simp only []
    cases f.lg with
    | none => rfl
    | some w =>
      simp only []
      cases f.logf with
      | none => rfl
      | some h =>
        simp only []
        split_ifs <;> rfl

theorem ConsoleOn_log (os : Refusals) (ctx : Ctx) (c a : String) (s : Sys) :
    (ConsoleOn os ctx c a s).sys.log = s.log := by
  unfold ConsoleOn
  split_ifs
  · exact lgWriteOn_log _ _ _
  · rfl

theorem leveledOn_log (os : Refusals) (lvl : Int) (tag : String) (ctx : Ctx) (args : String)
    (s : Sys) : (leveledOn os lvl tag ctx args s).sys.log = s.log := by
  have hbody : (writeBodyOn os ctx tag args s).sys.log = s.log := by
    unfold writeBodyOn
    cases s.log.logObj with
    | none => rfl
    | some f =>
      simp only []
      cases hp : (lgWriteOn os (outputRec ctx tag args) s).panic with
      | some v => exact lgWriteOn_log _ _ _
      | none =>
        simp only []
        rw [ConsoleOn_log, lgWriteOn_log]
  unfold leveledOn
  split_ifs
  · rfl
  · unfold catchErrorOn
    cases hp : (writeBodyOn os ctx tag args s).panic with
    | none => exact hbody
    | some v =>
      simp only []
      rw [lgWriteOn_log, hbody]

theorem isMustRenameOn_sys (os : Refusals) (now : Int) (s : Sys) :
    (isMustRenameOn os now s).sys = s := by
  unfold isMustRenameOn
  by_cases hd : s.log.rollWay = _DATE
  · rw [if_pos hd]
    cases s.log.logObj with
    | none => rfl
    | some f =>
      simp only []
      cases f.date with
      | none => rfl
      | some d =>
        simp only []
        split_ifs <;> rfl
  · rw [if_neg hd]
    by_cases hf : s.log.rollWay = _FILE
    · rw [if_pos hf]
      cases s.log.logObj with
      | none => rfl
      | some f =>
        simp only []
        split_ifs <;> rfl
    · rw [if_neg hf]

theorem renameOn_keeps_rollWay (os : Refusals) (ctx : Ctx) (s : Sys) :
    (renameOn os ctx s).sys.log.rollWay = s.log.rollWay := by
  unfold renameOn
  by_cases hd : s.log.rollWay = _DATE
  · rw [if_pos hd]
    cases h1 : s.log.logObj with
    | none => rfl
    | some f =>
      simp only []
      cases h2 : f.date with
      | none => rfl
      | some d =>
        simp only []
        split_ifs <;> rfl
  · rw [if_neg hd]
    by_cases hf : s.log.rollWay = _FILE
    · rw [if_pos hf]
      cases h1 : s.log.logObj <;> rfl
    · rw [if_neg hf]

theorem renameOn_keeps_maxFileCount (os : Refusals) (ctx : Ctx) (s : Sys) :
    (renameOn os ctx s).sys.log.maxFileCount = s.log.maxFileCount := by
  unfold renameOn
  by_cases hd : s.log.rollWay = _DATE
  · rw [if_pos hd]
    cases h1 : s.log.logObj with
    | none => rfl
    | some f =>
      simp only []
      cases h2 : f.date with
      | none => rfl
      | some d =>
        simp only []
        split_ifs <;> rfl
  · rw [if_neg hd]
    by_cases hf : s.log.rollWay = _FILE
    · rw [if_pos hf]
      cases h1 : s.log.logObj <;> rfl
    · rw [if_neg hf]

theorem DateReady_of_log (s t : Sys) (hlog : t.log = s.log) (h : DateReady s) :
    DateReady t := by
  unfold DateReady
  rw [hlog]
  exact h

theorem isExistOn_absent (os : Refusals) (fs : FS) (p : String) (h : fs p = none) :
    isExistOn os fs p = false := by
  unfold isExistOn
  split_ifs
  · rfl
  · simp [isExist, h]

theorem renameOn_date (os : Refusals) (ctx : Ctx) (s : Sys) (f : __FILE) (d : Int)
    (w : LogWriter)
    (hmode : s.log.rollWay = _DATE) (hobj : s.log.logObj = some f)
    (hdate : f.date = some d) (hlg : f.lg = some w) (hcount : s.log.maxFileCount ≠ 1) :
    renameOn os ctx s =
      if isExistOn os s.fs (datePath f d) = true then ⟨s, none⟩
      else ⟨reopenOn os s { f with date := some ctx.now }
              (osRenameOn os s.fs (activePath f) (datePath f d)).1, none⟩ := by
  have ha : f.dir ++ "/" ++ f.fname = activePath f := rfl
  have hp : activePath f ++ "." ++ formatDate (d - 1) = datePath f d := rfl
  cases hex : isExistOn os s.fs (datePath f d) with
  | true =>
    simp only [renameOn, hmode, if_true, hobj, hdate, ha, hp, hex, Bool.not_true,
      Bool.false_eq_true, if_false]
  | false =>
    simp only [renameOn, hmode, if_true, hobj, hdate, ha, hp, hex, Bool.not_false, hcount,
      if_false, hlg, reduceCtorEq, and_false, Bool.false_eq_true]

theorem DateReady_renameOn (os : Refusals) (ctx : Ctx) (s : Sys) (h : DateReady s) :
    DateReady (renameOn os ctx s).sys := by
  obtain ⟨h1, h2⟩ := h
  refine ⟨by rw [renameOn_keeps_rollWay, renameOn_keeps_maxFileCount]; exact h1, ?_⟩
  rw [renameOn_keeps_rollWay]
  intro hm
  obtain ⟨f, d, w, e1, e2, e3⟩ := h2 hm
  have hc : s.log.maxFileCount ≠ 1 := by
    rw [h1 (by rw [hm]; exact fun e => mode_ne.1 e.symm)]; decide
  rw [renameOn_date os ctx s f d w hm e1 e2 e3 hc]
  split_ifs
  · exact ⟨f, d, w, e1, e2, e3⟩
  · exact ⟨_, ctx.now, ⟨s.log.console⟩, rfl, rfl, rfl⟩

theorem fileCheckOn_log (os : Refusals) (ctx : Ctx) (s : Sys) :
    (fileCheckOn os ctx s).sys.log = s.log ∨
    (fileCheckOn os ctx s).sys.log = (renameOn os ctx s).sys.log := by
  have hbody : ∀ b : Res,
      (b.sys.log = s.log ∨ b.sys.log = (renameOn os ctx s).sys.log) →
      ((match b.panic with
        | none => b
        | some v => lgWriteOn os (printlnRec ctx "387" v) b.sys).sys.log = s.log ∨
       (match b.panic with
        | none => b
        | some v => lgWriteOn os (printlnRec ctx "387" v) b.sys).sys.log
          = (renameOn os ctx s).sys.log) := by
    intro b hb
    cases b.panic with
    | none => exact hb
    | some v => simp only []; rw [lgWriteOn_log]; exact hb
  unfold fileCheckOn
  apply hbody
  cases s.log.logObj with
  | none => exact Or.inl rfl
  | some f =>
    simp only []
    cases (isMustRenameOn os ctx.now s).panic with
    | some v => simp only []; rw [isMustRenameOn_sys]; exact Or.inl rfl
    | none =>
      simp only []
      split_ifs
      · rw [isMustRenameOn_sys]; exact Or.inr rfl
      · simp only []; rw [isMustRenameOn_sys]; exact Or.inl rfl

theorem DateReady_fileCheckOn (os : Refusals) (ctx : Ctx) (s : Sys) (h : DateReady s) :
    DateReady (fileCheckOn os ctx s).sys := by
  rcases fileCheckOn_log os ctx s with e | e
  · exact DateReady_of_log s _ e h
  · exact DateReady_of_log _ _ e (DateReady_renameOn os ctx s h)

theorem openOrRotateOn_rollWay (os : Refusals) (ctx : Ctx) (dir name : String) (s2 : Sys) :
    (openOrRotateOn os ctx dir name s2).sys.log.rollWay = s2.log.rollWay := by
  unfold openOrRotateOn
  simp only []
  cases (isMustRenameOn os ctx.now s2).panic with
  | some v => simp only []; rw [isMustRenameOn_sys]
  | none =>
    simp only []
    split_ifs
    · rw [isMustRenameOn_sys]
      cases s2.log.logObj <;> rfl
    · rw [isMustRenameOn_sys]
      cases (renameOn os ctx s2).panic with
      | some v => exact renameOn_keeps_rollWay os ctx s2
      | none => exact renameOn_keeps_rollWay os ctx s2

theorem openOrRotateOn_date_open (os : Refusals) (ctx : Ctx) (dir name : String)
    (g : __FILE) (s2 : Sys)
    (hmode : s2.log.rollWay = _DATE) (hobj : s2.log.logObj = some g)
    (hdate : g.date = some (ctx.now + 1)) :
    openOrRotateOn os ctx dir name s2 =
      ⟨{ s2 with
          fs := (osOpenFileOn os s2.fs (dir ++ "/" ++ name)).1,
          log := { s2.log with
            logObj := some { g with logf := (osOpenFileOn os s2.fs (dir ++ "/" ++ name)).2,
                                    lg := some ⟨s2.log.console⟩ } },
          monitors := s2.monitors + 1 }, none⟩ := by
  have hm : isMustRenameOn os ctx.now s2 = ⟨s2, none, false⟩ := by
    simp only [isMustRenameOn, hmode, if_true, hobj, hdate]
    rw [if_neg (by omega)]
  unfold openOrRotateOn
  simp only [hm, hobj]
  rfl

theorem DateReady_SetRollFileOn (os : Refusals) (ctx : Ctx) (dir name : String) (a b : Nat)
    (u : Int) (s : Sys) (h : DateReady s) :
    DateReady (SetRollFileOn os ctx dir name a b u s).sys := by
  unfold SetRollFileOn
  split_ifs with h1 h2
  · exact h
  · exact h
  · have hr : (startSinkOn os ctx dir name
        { s with log := { s.log with
            maxFileCount := b,
            maxFileSize := wrap64 (intOfUint a * u),
            rollWay := _FILE,
            logObj := some (
              { dir := dir, fname := name, suffix := 0, iscover := false, date := none,
                logf := none, lg := none } : __FILE) } }).sys.log.rollWay = _FILE := by
      unfold startSinkOn
      rw [openOrRotateOn_rollWay]
      split_ifs <;> rfl
    exact ⟨fun e => absurd hr e, fun e => absurd (hr.symm.trans e) mode_ne.1⟩

theorem DateReady_SetRollDateOn (os : Refusals) (ctx : Ctx) (dir name : String) (i : Nat)
    (s : Sys) (h : DateReady s) : DateReady (SetRollDateOn os ctx dir name i s).sys := by
  unfold SetRollDateOn
  split_ifs with h1 h2
  · exact h
  · exact h
  · have hnull : s.log.rollWay = _NULL := not_not.1 h2
    have hz : s.log.maxFileCount = 0 := h.1 (by rw [hnull]; exact mode_ne.2.2)
    have key : ∀ s2 : Sys,
        s2.log = { s.log with rollWay := _DATE, rollDay := i, logObj := some (
          { dir := dir, fname := name, suffix := 0, iscover := false,
            date := some (ctx.now + 1), logf := none, lg := none } : __FILE) } →
        DateReady (openOrRotateOn os ctx dir name s2).sys := by
      intro s2 hl
      rw [openOrRotateOn_date_open os ctx dir name _ s2 (by rw [hl]) (by rw [hl]) rfl]
      refine ⟨fun _ => ?_, fun _ => ⟨_, ctx.now + 1, ⟨s2.log.console⟩, rfl, rfl, rfl⟩⟩
      show s2.log.maxFileCount = 0
      rw [hl]; exact hz
    unfold startSinkOn
    simp only []
    split_ifs
    · exact key _ rfl
    · exact key _ rfl

theorem DateReady_runOn (os : Refusals) (ctx : Ctx) (c : Call) (s : Sys) (h : DateReady s) :
    DateReady (c.runOn os ctx s).sys := by
  cases c with
  | setConsole b => exact h
  | setLevel l =>
    simp only [Call.runOn, SetLevel]
    split_ifs
    · exact h
    · exact h
  | setRollFile d n a b u => exact DateReady_SetRollFileOn os ctx d n a b u s h
  | setRollDate d n i => exact DateReady_SetRollDateOn os ctx d n i s h
  | console a => exact DateReady_of_log s _ (ConsoleOn_log _ _ _ _ _) h
  | debug a => exact DateReady_of_log s _ (leveledOn_log _ _ _ _ _ _) h
  | info a => exact DateReady_of_log s _ (leveledOn_log _ _ _ _ _ _) h
  | warn a => exact DateReady_of_log s _ (leveledOn_log _ _ _ _ _ _) h
  | error a => exact DateReady_of_log s _ (leveledOn_log _ _ _ _ _ _) h
  | fatal a => exact DateReady_of_log s _ (leveledOn_log _ _ _ _ _ _) h
  | tick => exact DateReady_fileCheckOn os ctx s h

theorem DateReady_runCallsOn : ∀ (cs : List (Refusals × Ctx × Call)) (s : Sys),
    DateReady s → DateReady (runCallsOn cs s) := by
  intro cs
  induction cs with
  | nil => intro s h; exact h
  | cons c cs ih => intro s h; exact ih _ (DateReady_runOn c.1 c.2.1 c.2.2 s h)

theorem DateReady_init (fs : FS) : DateReady (Sys.init fs) :=
  ⟨fun _ => rfl, fun e => absurd e mode_ne.2.1⟩

theorem osRenameOn_other (os : Refusals) (fs : FS) (a b p : String) (h1 : p ≠ a)
    (h2 : p ≠ b) : (osRenameOn os fs a b).1 p = fs p := by
  unfold osRenameOn osRename
  split_ifs
  · rfl
  · cases fs a with
    | none => rfl
    | some v =>
      simp only []
      rw [FS.set_other _ _ _ _ h2, FS.set_other _ _ _ _ h1]

theorem osCreateOn_other (os : Refusals) (fs : FS) (q p : String) (h : p ≠ q) :
    (osCreateOn os fs q).1 p = fs p := by
  unfold osCreateOn osCreate
  split_ifs
  · rfl
  · cases hq : fs q with
    | none => simp only []; exact FS.set_other _ _ _ _ h
    | some v =>
      cases v with
      | dir => rfl
      | file data => simp only []; exact FS.set_other _ _ _ _ h

/-- C11 (amended): in every state reached from `NewLogger` by client calls
and monitor ticks, whatever the operating system refused on the way, in which
the mode is date: `maxFileCount` is not 1, so `rename` never takes the branch
that deletes the active file, and the logger has its file object, boundary
`d` and writer.  A rotation performed while the archive name
`base.<d - 1 day>` is absent ends without a panic and changes no path but the
active one and that name, so it deletes or overwrites no archive.  When
`os.Rename` is accepted, what was at the active path is, whole, under the
archive name afterwards.  When `os.Rename` is refused, no archive is made,
and once `os.Create` is accepted the active file is empty: its records are
in no file. -/
theorem date_rotation_archives_when_rename_succeeds (fs0 : FS)
    (cs : List (Refusals × Ctx × Call)) (s : Sys)
    (hreach : s = runCallsOn cs (Sys.init fs0)) (hmode : s.log.rollWay = _DATE) :
    s.log.maxFileCount ≠ 1 ∧
    ∃ f d w, s.log.logObj = some f ∧ f.date = some d ∧ f.lg = some w ∧
      ∀ (os : Refusals) (ctx : Ctx), s.fs (datePath f d) = none →
        (renameOn os ctx s).panic = none ∧
        (∀ p, p ≠ activePath f → p ≠ datePath f d → (renameOn os ctx s).sys.fs p = s.fs p) ∧
        (∀ v, s.fs (activePath f) = some v →
          os (SysCall.rename (activePath f) (datePath f d)) = false →
          (renameOn os ctx s).sys.fs (datePath f d) = some v) ∧
        (os (SysCall.rename (activePath f) (datePath f d)) = true →
          (renameOn os ctx s).sys.fs (datePath f d) = none ∧
          ∀ data, s.fs (activePath f) = some (Node.file data) →
            os (SysCall.create (activePath f)) = false →
            (renameOn os ctx s).sys.fs (activePath f) = some (Node.file [])) := by
  have hinv : DateReady s := by
    rw [hreach]; exact DateReady_runCallsOn cs _ (DateReady_init fs0)
  obtain ⟨f, d, w, e1, e2, e3⟩ := hinv.2 hmode
  have hc : s.log.maxFileCount ≠ 1 := by
    rw [hinv.1 (by rw [hmode]; exact fun e => mode_ne.1 e.symm)]; decide
  refine ⟨hc, f, d, w, e1, e2, e3, ?_⟩
  intro os ctx hnew
  have hne : datePath f d ≠ activePath f := fun e => activePath_ne_datePath f d e.symm
  rw [renameOn_date os ctx s f d w hmode e1 e2 e3 hc, isExistOn_absent os s.fs _ hnew]
  simp only [Bool.false_eq_true, if_false]
  have ha : f.dir ++ "/" ++ f.fname = activePath f := rfl
  simp only [reopenOn, ha]
  refine ⟨trivial, ?_, ?_, ?_⟩
  · intro p hp1 hp2
    rw [osCreateOn_other _ _ _ _ hp1, osRenameOn_other _ _ _ _ _ hp1 hp2]
  · intro v hv hacc
    rw [osCreateOn_other _ _ _ _ hne]
    simp only [osRenameOn, hacc, Bool.false_eq_true, if_false, osRename, hv, FS.set_same]
  · intro href
    have hr : (osRenameOn os s.fs (activePath f) (datePath f d)).1 = s.fs := by
      simp only [osRenameOn, href, if_true]
    refine ⟨?_, ?_⟩
    · rw [osCreateOn_other _ _ _ _ hne, hr, hnew]
    · intro data hdata hcr
      rw [hr]
      simp only [osCreateOn, hcr, Bool.false_eq_true, if_false, osCreate, hdata, FS.set_same]

set_option maxRecDepth 100000 in
set_option maxHeartbeats 4000000 in
theorem shortRun_state :
    (runCallsOn shortRun (Sys.init FS.empty)).log.rollWay = _DATE ∧
    (runCallsOn shortRun (Sys.init FS.empty)).log.logObj
      = some { demoFile with date := some 19793 } ∧
    (runCallsOn shortRun (Sys.init FS.empty)).fs "logs/a.log"
      = some (Node.file ["\n2024/03/10 12:00:00 main.go:7: error: [x]\n"]) ∧
    (runCallsOn shortRun (Sys.init FS.empty)).fs "logs/a.log.2024-03-10" = none ∧
    datePath { demoFile with date := some 19793 } 19793 = "logs/a.log.2024-03-10" ∧
    nameLimit (SysCall.rename "logs/a.log" "logs/a.log.2024-03-10") = false := by
  decide

/-- C11 (witness): date mode configured on 2024-03-10 with base name `a.log`
on a file system with the name limit, one line written, the rotation of
2024-03-12: `maxFileCount` is not 1 and the line is kept in
`logs/a.log.2024-03-10`. -/
theorem date_rotation_archives_when_rename_succeeds_witness :
    (runCallsOn shortRun (Sys.init FS.empty)).log.maxFileCount ≠ 1 ∧
    (renameOn nameLimit { demoCtx with now := 19794 }
        (runCallsOn shortRun (Sys.init FS.empty))).sys.fs "logs/a.log.2024-03-10"
      = some (Node.file ["\n2024/03/10 12:00:00 main.go:7: error: [x]\n"]) := by
  obtain ⟨s1, s2, s3, s4, s5, s6⟩ := shortRun_state
  obtain ⟨hc, f, d, w, hf, hd, _, h⟩ :=
    date_rotation_archives_when_rename_succeeds FS.empty shortRun
      (runCallsOn shortRun (Sys.init FS.empty)) rfl s1
  refine ⟨hc, ?_⟩
  have hfe : f = { demoFile with date := some 19793 } := Option.some.inj (hf.symm.trans s2)
  rw [hfe] at hd h
  have hde : d = 19793 := (Option.some.inj hd).symm
  rw [hde, s5] at h
  exact (h nameLimit { demoCtx with now := 19794 } s4).2.2.1 _ s3 s6

set_option maxRecDepth 100000 in
set_option maxHeartbeats 4000000 in
/-- C11 (counterexample): date mode configured on 2024-03-10 with a base name
of 245 bytes on a file system whose names are limited to 255 bytes, one line
written.  The state is reached by client calls and its mode is date.  On
2024-03-12 the monitor's check rotates: the archive name has 256 bytes, so
`os.Stat` fails and the rotation is performed, `os.Rename` fails with the
active file present, and `os.Create` truncates the active file.  Afterwards
no archive exists and the active file is empty: the line is discarded. -/
theorem long_name_rotation_discards_the_log :
    (runCallsOn longRun (Sys.init FS.empty)).log.rollWay = _DATE ∧
    (runCallsOn longRun (Sys.init FS.empty)).fs ("logs/" ++ longName)
      = some (Node.file ["\n2024/03/10 12:00:00 main.go:7: error: [x]\n"]) ∧
    isExistOn nameLimit (runCallsOn longRun (Sys.init FS.empty)).fs
      ("logs/" ++ longName ++ ".2024-03-10") = false ∧
    (fileCheckOn nameLimit { demoCtx with now := 19794 }
        (runCallsOn longRun (Sys.init FS.empty))).panic = none ∧
    boundary (fileCheckOn nameLimit { demoCtx with now := 19794 }
        (runCallsOn longRun (Sys.init FS.empty))).sys = some 19794 ∧
    (fileCheckOn nameLimit { demoCtx with now := 19794 }
        (runCallsOn longRun (Sys.init FS.empty))).sys.fs
          ("logs/" ++ longName ++ ".2024-03-10") = none ∧
    (fileCheckOn nameLimit { demoCtx with now := 19794 }
        (runCallsOn longRun (Sys.init FS.empty))).sys.fs ("logs/" ++ longName)
      = some (Node.file []) := by
  decide
/-! ## Interleavings: what the files hold -/

theorem write_step (f : __FILE) (n : Nat) (lv : Int) (base : FS) (ctx : Ctx) (lvl : Int)
    (tag args : String) (s : Sys) (hist : List (List String)) (a : List String)
    (hs : WriterSink f n lv s) (ha : Archived f n hist a base s.fs) :
    WriterSink f n lv (leveled lvl tag ctx args s).sys ∧
    Archived f n hist (a ++ (if lv > lvl then [] else [outputRec ctx tag args])) base
      (leveled lvl tag ctx args s).sys.fs := by
  obtain ⟨hmode, hcount, hlevel, hcons, g, w, hobj, hgd, hgf, hlogf, hlg⟩ := hs
  obtain ⟨a1, a2, a3⟩ := ha
  refine ⟨⟨?_, ?_, ?_, ?_, g, w, ?_, hgd, hgf, hlogf, hlg⟩, ?_⟩
  · rw [leveled_log]; exact hmode
  · rw [leveled_log]; exact hcount
  · rw [leveled_log]; exact hlevel
  · rw [leveled_log]; exact hcons
  · rw [leveled_log]; exact hobj
  · by_cases hg : lv > lvl
    · have hgate : s.log.level > lvl := by rw [hlevel]; exact hg
      have : (leveled lvl tag ctx args s).sys = s := by
        simp only [leveled, if_pos hgate]
      rw [this, if_pos hg, List.append_nil]
      exact ⟨a1, a2, a3⟩
    · have hgate : ¬ s.log.level > lvl := by rw [hlevel]; exact hg
      have hfs : (leveled lvl tag ctx args s).sys.fs
          = s.fs.set (activePath f) (some (Node.file (a ++ [outputRec ctx tag args]))) := by
        simp [leveled, hgate, writeBody, hobj, lgWrite, hlg, hlogf, Console, hcons, catchError,
          fsAppend, a1]
      rw [hfs, if_neg hg]
      refine ⟨FS.set_same _ _ _, ?_, ?_⟩
      · intro i h1 h2
        rw [FS.set_other _ _ _ _ (fun e => activePath_ne_archPath f i e.symm)]
        exact a2 i h1 h2
      · intro p hp1 hp2
        rw [FS.set_other _ _ _ _ hp1]
        exact a3 p hp1 hp2

theorem rotate_step (f : __FILE) (n : Nat) (hn2 : 2 ≤ n) (hn : n < 2 ^ 64) (lv : Int)
    (base : FS) (hbase : ∀ i, base (archPath f i) = none) (ctx : Ctx)
    (s : Sys) (hist : List (List String)) (a : List String)
    (hs : WriterSink f n lv s) (ha : Archived f n hist a base s.fs) :
    WriterSink f n lv (rename ctx s).sys ∧
    Archived f n (a :: hist) [] base (rename ctx s).sys.fs := by
  obtain ⟨hmode, hcount, hlevel, hcons, g, w, hobj, hgd, hgf, hlogf, hlg⟩ := hs
  have hwr : writeRecords [] s = s := by
    simp only [writeRecords, hobj, hlogf, List.foldl_nil]
  have hstep := rotation_step ctx f n hn2 hn base hbase s hist a []
    ⟨hmode, hcount, g, hobj, hgd, hgf, hlogf⟩ ha
  rw [hwr, List.append_nil] at hstep
  obtain ⟨_, r2, _⟩ := rename_size_step ctx s g hmode hobj
    (by rw [hcount]; exact hn2) (by rw [hcount]; exact hn)
  refine ⟨⟨?_, ?_, ?_, ?_,
    { g with logf := some (activePath g), lg := some ⟨s.log.console⟩ }, ⟨s.log.console⟩,
    ?_, hgd, hgf, ?_, rfl⟩, hstep.2⟩
  · rw [r2]; exact hmode
  · rw [r2]; exact hcount
  · rw [r2]; exact hlevel
  · rw [r2]; exact hcons
  · rw [r2]
  · exact congrArg some (activePath_congr f g hgd hgf)

theorem fileCheck_size (ctx : Ctx) (s : Sys) (g : __FILE)
    (hmode : s.log.rollWay = _FILE) (hobj : s.log.logObj = some g) :
    ∃ b, isMustRename ctx.now s = ⟨s, none, b⟩ ∧
      (fileCheck ctx s).sys = if b = true then (rename ctx s).sys else s := by
  have hren := rename_size_no_panic ctx s g hmode hobj
  by_cases hsz : getFileSize s.fs (g.dir ++ "/" ++ g.fname) ≥ s.log.maxFileSize
  · have hm : isMustRename ctx.now s = ⟨s, none, true⟩ := by
      simp only [isMustRename, hmode, mode_ne.1, if_false, if_true, hobj]
      rw [if_pos hsz]
    refine ⟨true, hm, ?_⟩
    simp only [fileCheck, hobj, hm, if_true]
    rw [hren]
  · have hm : isMustRename ctx.now s = ⟨s, none, false⟩ := by
      simp only [isMustRename, hmode, mode_ne.1, if_false, if_true, hobj]
      rw [if_neg hsz]
    refine ⟨false, hm, ?_⟩
    simp only [fileCheck, hobj, hm]
    rfl

/-! ### The accepting operating system gives the operations of the first part -/

theorem shiftArchivesOn_accepting (f : __FILE) (n : Nat) :
    ∀ (k : Nat) (fs : FS), shiftArchivesOn accepting f n k fs = shiftArchives f n k fs := by
  intro k
  induction k with
  | zero => intro fs; rfl
  | succ k ih => intro fs; exact ih _

theorem isMustRenameOn_accepting (now : Int) (s : Sys) :
    isMustRenameOn accepting now s = isMustRename now s := rfl

theorem renameOn_accepting (ctx : Ctx) (s : Sys) : renameOn accepting ctx s = rename ctx s := by
  unfold renameOn rename
  simp only [shiftArchivesOn_accepting]
  rfl

theorem leveledOn_accepting (lvl : Int) (tag : String) (ctx : Ctx) (args : String) (s : Sys) :
    leveledOn accepting lvl tag ctx args s = leveled lvl tag ctx args s := rfl

theorem fileCheckOn_accepting (ctx : Ctx) (s : Sys) :
    fileCheckOn accepting ctx s = fileCheck ctx s := by
  unfold fileCheckOn fileCheck
  simp only [renameOn_accepting, isMustRenameOn_accepting]
  rfl

theorem onAccepting_accepts (es : List (Ctx × Step)) :
    ∀ e ∈ onAccepting es, ∀ c, e.1 c = false := by
  intro e he c
  simp only [onAccepting, List.mem_map] at he
  obtain ⟨x, _, rfl⟩ := he
  rfl

theorem steps_invariant (f : __FILE) (n : Nat) (hn2 : 2 ≤ n) (hn : n < 2 ^ 64) (lv : Int)
    (base : FS) (hbase : ∀ i, base (archPath f i) = none) :
    ∀ (es : List (Refusals × Ctx × Step)) (s : Sys) (hist : List (List String))
      (a : List String),
      (∀ e ∈ es, ∀ c, e.1 c = false) →
      WriterSink f n lv s → Archived f n hist a base s.fs →
      ∃ hist1 a1, Archived f n hist1 a1 base (runStepsOn es s).fs ∧
        hist1.reverse.flatten ++ a1
          = hist.reverse.flatten ++ a ++ written lv (es.map Prod.snd) ∧
        hist1.length = hist.length + rotationsIn es s := by
  intro es
  induction es with
  | nil =>
    intro s hist a _ _ ha
    exact ⟨hist, a, ha, by simp [written], by simp [rotationsIn]⟩
  | cons e es ih =>
    intro s hist a hacc hs ha
    obtain ⟨os, ctx, st⟩ := e
    have hos : os = accepting := funext (hacc (os, ctx, st) (List.mem_cons_self _ _))
    subst hos
    have hrest : ∀ e ∈ es, ∀ c, e.1 c = false :=
      fun e he => hacc e (List.mem_cons_of_mem _ he)
    have hrot : ∀ t : Sys, t = (rename ctx s).sys →
        ∃ hist1 a1, Archived f n hist1 a1 base (runStepsOn es t).fs ∧
          hist1.reverse.flatten ++ a1 = hist.reverse.flatten ++ a ++ written lv
            (es.map Prod.snd) ∧
          hist1.length = hist.length + (1 + rotationsIn es t) := by
      intro t ht
      obtain ⟨hs1, ha1⟩ := rotate_step f n hn2 hn lv base hbase ctx s hist a hs ha
      rw [← ht] at hs1 ha1
      obtain ⟨h1, b1, i1, i2, i3⟩ := ih t (a :: hist) [] hrest hs1 ha1
      refine ⟨h1, b1, i1, ?_, ?_⟩
      · rw [i2]; simp
      · simp only [List.length_cons] at i3; omega
    cases st with
    | write lvl tag args =>
      obtain ⟨hs1, ha1⟩ := write_step f n lv base ctx lvl tag args s hist a hs ha
      obtain ⟨h1, b1, i1, i2, i3⟩ := ih _ hist _ hrest hs1 ha1
      refine ⟨h1, b1, i1, ?_, ?_⟩
      · rw [i2]; simp [written]
      · simp only [rotationsIn, Step.rotates, Step.runOn, leveledOn_accepting]
        simpa using i3
    | rotate =>
      obtain ⟨h1, b1, i1, i2, i3⟩ := hrot _ rfl
      refine ⟨h1, b1, ?_, ?_, ?_⟩
      · simp only [runStepsOn, Step.runOn, renameOn_accepting]; exact i1
      · simpa [written] using i2
      · simp only [rotationsIn, Step.rotates, Step.runOn, renameOn_accepting, if_true]
        exact i3
    | tick =>
      have hmode : s.log.rollWay = _FILE := hs.1
      obtain ⟨g, _, hobj, _⟩ := hs.2.2.2.2
      obtain ⟨b, hm, hfc⟩ := fileCheck_size ctx s g hmode hobj
      cases b with
      | true =>
        rw [if_pos rfl] at hfc
        obtain ⟨h1, b1, i1, i2, i3⟩ := hrot _ hfc
        refine ⟨h1, b1, ?_, ?_, ?_⟩
        · simp only [runStepsOn, Step.runOn, fileCheckOn_accepting]; exact i1
        · simpa [written] using i2
        · simp only [rotationsIn, Step.rotates, Step.runOn, fileCheckOn_accepting, hobj,
            isMustRenameOn_accepting, hm, if_true]
          exact i3
      | false =>
        rw [if_neg (by decide)] at hfc
        obtain ⟨h1, b1, i1, i2, i3⟩ := ih s hist a hrest hs ha
        refine ⟨h1, b1, ?_, ?_, ?_⟩
        · simp only [runStepsOn, Step.runOn, fileCheckOn_accepting, hfc]; exact i1
        · simpa [written] using i2
        · simp only [rotationsIn, Step.rotates, Step.runOn, fileCheckOn_accepting, hobj,
            isMustRenameOn_accepting, hm, hfc]
          simpa using i3

theorem fileData_of_archived (f : __FILE) (n : Nat) (hn : n < 2 ^ 64) (base fs : FS)
    (hbase : ∀ i, base (archPath f i) = none) (hist : List (List String)) (a : List String)
    (ha : Archived f n hist a base fs) (k : Nat) (hk : k + 1 ≤ n) :
    fileData fs (archPath f (k + 1)) = (hist[k]?.toList).flatten := by
  obtain ⟨_, a2, a3⟩ := ha
  cases hg : hist[k]? with
  | none =>
    have hlen : hist.length ≤ k := List.getElem?_eq_none_iff.1 hg
    have hnone : fs (archPath f (k + 1)) = none := by
      rw [a3 _ (fun e => activePath_ne_archPath f _ e.symm)
        (fun i hi1 hi2 => archPath_ne f _ _ (by omega) (by omega) (by omega))]
      exact hbase _
    simp [fileData, hnone]
  | some c =>
    have hlen : k < hist.length := by
      by_contra hc
      rw [List.getElem?_eq_none (by omega)] at hg
      cases hg
    have hsome : fs (archPath f (k + 1)) = some (Node.file c) := by
      rw [a2 (k + 1) (by omega) (by omega)]
      simp [hg]
    simp [fileData, hsome]

theorem storedRecords_of_archived (f : __FILE) (n : Nat) (hn : n < 2 ^ 64) (base fs : FS)
    (hbase : ∀ i, base (archPath f i) = none) (hist : List (List String)) (a : List String)
    (ha : Archived f n hist a base fs) :
    ∀ k, k ≤ n → storedRecords f fs k = ((hist.take k).reverse).flatten := by
  intro k
  induction k with
  | zero => intro _; simp [storedRecords]
  | succ k ih =>
    intro hk
    simp only [storedRecords]
    rw [ih (by omega), fileData_of_archived f n hn base fs hbase hist a ha k hk, List.take_succ,
      List.reverse_append, List.flatten_append]
    cases hist[k]? <;> simp

/-- C12 (amended): a size-mode sink with the console off keeping `n ≥ 2`
generations, no archive present at the start, and any interleaving `es` of
leveled writes with checks and rotations of the monitor, each one critical
section of the lock, on an operating system that refuses none of the calls.
The records in the archives `n .. 1` and the active file, oldest first, are
always a final part of the lines written, in the order written: nothing is
duplicated or altered.  When at most `n` rotations take place they are all
the lines written and the counts agree: no line is lost.  No archive name
beyond `n` exists. -/
theorem stored_lines_are_the_written_lines (s : Sys) (f : __FILE) (n : Nat) (lv : Int)
    (w : LogWriter) (d0 : List String) (es : List (Refusals × Ctx × Step))
    (hmode : s.log.rollWay = _FILE) (hcount : s.log.maxFileCount = n)
    (hn2 : 2 ≤ n) (hn : n < 2 ^ 64)
    (hlevel : s.log.level = lv) (hcons : s.log.console = false)
    (hobj : s.log.logObj = some f) (hlogf : f.logf = some (activePath f))
    (hlg : f.lg = some w)
    (hactive : s.fs (activePath f) = some (Node.file d0))
    (hnoarch : ∀ i, s.fs (archPath f i) = none)
    (haccept : ∀ e ∈ es, ∀ c, e.1 c = false) :
    (∃ lost, lost ++ (storedRecords f (runStepsOn es s).fs n ++
        fileData (runStepsOn es s).fs (activePath f))
          = d0 ++ written lv (es.map Prod.snd)) ∧
    (rotationsIn es s ≤ n →
      storedRecords f (runStepsOn es s).fs n ++ fileData (runStepsOn es s).fs (activePath f)
        = d0 ++ written lv (es.map Prod.snd) ∧
      (storedRecords f (runStepsOn es s).fs n).length +
        (fileData (runStepsOn es s).fs (activePath f)).length
          = d0.length + (written lv (es.map Prod.snd)).length) ∧
    (∀ i, i < 2 ^ 64 → (i = 0 ∨ n < i) → (runStepsOn es s).fs (archPath f i) = none) := by
  have h0 : Archived f n [] d0 s.fs s.fs :=
    ⟨hactive, fun i h1 h2 => by simp at h2; omega, fun p _ _ => rfl⟩
  have hsink : WriterSink f n lv s :=
    ⟨hmode, hcount, hlevel, hcons, f, w, hobj, rfl, rfl, hlogf, hlg⟩
  obtain ⟨hist, a, ha, heq, hlen⟩ :=
    steps_invariant f n hn2 hn lv s.fs hnoarch es s [] d0 haccept hsink h0
  have hst := storedRecords_of_archived f n hn s.fs _ hnoarch hist a ha n (le_refl n)
  have hact : fileData (runStepsOn es s).fs (activePath f) = a := by
    simp only [fileData, ha.1]
  have heq1 : hist.reverse.flatten ++ a = d0 ++ written lv (es.map Prod.snd) := by
    rw [heq]; simp
  rw [hst, hact]
  refine ⟨⟨((hist.drop n).reverse).flatten, ?_⟩, ?_, ?_⟩
  · rw [← heq1, ← List.append_assoc, ← List.flatten_append, ← List.reverse_append,
      List.take_append_drop]
  · intro hb
    have hall : hist.take n = hist := List.take_of_length_le (by simp at hlen; omega)
    rw [hall]
    refine ⟨heq1, ?_⟩
    rw [← List.length_append, heq1, List.length_append]
  · intro i hi hout
    rw [ha.2.2 _ (fun e => activePath_ne_archPath f _ e.symm)
      (fun j hj1 hj2 => archPath_ne f _ _ hi (by omega) (by omega))]
    exact hnoarch i

set_option maxRecDepth 100000 in
theorem freshSink_log : freshSink.log =
    { level := ERROR, maxFileSize := 1, maxFileCount := 3, rollDay := 0, rollWay := _FILE,
      console := false, logObj := some demoFile } := by
  decide

set_option maxRecDepth 100000 in
theorem freshSink_fs : freshSink.fs =
    (FS.empty.set "logs" (some Node.dir)).set "logs/a.log" (some (Node.file [])) := by
  rfl

theorem freshSink_no_archive (i : Nat) : freshSink.fs (archPath demoFile i) = none := by
  have h1 : archPath demoFile i ≠ "logs/a.log" :=
    fun e => activePath_ne_archPath demoFile i e.symm
  have h2 : archPath demoFile i ≠ "logs" := fun e => dir_ne_archPath demoFile i e.symm
  rw [freshSink_fs, FS.set_other _ _ _ _ h1, FS.set_other _ _ _ _ h2]
  rfl

set_option maxRecDepth 100000 in
set_option maxHeartbeats 4000000 in
/-- C12 (witness): four writes around two rotations on the fresh sample sink
of three generations: two rotations take place and the files hold the four
lines, in order. -/
theorem stored_lines_are_the_written_lines_witness :
    rotationsIn (onAccepting calmRun) freshSink = 2 ∧
    storedRecords demoFile (runStepsOn (onAccepting calmRun) freshSink).fs 3 ++
        fileData (runStepsOn (onAccepting calmRun) freshSink).fs (activePath demoFile)
      = ["\n2024/03/10 12:00:00 main.go:7: error: [x]\n",
         "\n2024/03/10 12:00:00 main.go:7: fatal: [b]\n",
         "\n2024/03/10 12:00:00 main.go:7: error: [c]\n",
         "\n2024/03/10 12:00:00 main.go:7: error: [d]\n"] :=
  ⟨by decide,
   ((stored_lines_are_the_written_lines freshSink demoFile 3 ERROR ⟨false⟩ []
      (onAccepting calmRun)
      (by rw [freshSink_log]) (by rw [freshSink_log]) (by decide) (by norm_num)
      (by rw [freshSink_log]) (by rw [freshSink_log]) (by rw [freshSink_log]) rfl rfl
      (by rw [freshSink_fs]; rfl) freshSink_no_archive
      (onAccepting_accepts calmRun)).2.1 (by decide)).1.trans (by decide)⟩

set_option maxRecDepth 100000 in
set_option maxHeartbeats 4000000 in
/-- C12 (counterexample): the fresh sample sink of three generations, four
writes each followed by a check of the monitor, every call to the operating
system accepted.  Four rotations take place and four lines are written; the
active file and the archives 1 to 3 hold three of them, archive 4 does not
exist: the first line went with the archive the fourth rotation removed. -/
theorem fourth_rotation_loses_lines :
    freshSink.log.rollWay = _FILE ∧ freshSink.log.maxFileCount = 3 ∧
    rotationsIn (onAccepting burstRun) freshSink = 4 ∧
    written ERROR burstRun =
      ["\n2024/03/10 12:00:00 main.go:7: error: [x]\n",
       "\n2024/03/10 12:00:00 main.go:7: error: [b]\n",
       "\n2024/03/10 12:00:00 main.go:7: error: [c]\n",
       "\n2024/03/10 12:00:00 main.go:7: error: [d]\n"] ∧
    storedRecords demoFile (runStepsOn (onAccepting burstRun) freshSink).fs 3 ++
        fileData (runStepsOn (onAccepting burstRun) freshSink).fs "logs/a.log"
      = ["\n2024/03/10 12:00:00 main.go:7: error: [b]\n",
         "\n2024/03/10 12:00:00 main.go:7: error: [c]\n",
         "\n2024/03/10 12:00:00 main.go:7: error: [d]\n"] ∧
    (runStepsOn (onAccepting burstRun) freshSink).fs "logs/a.log.4" = none ∧
    (runStepsOn (onAccepting burstRun) freshSink).fs "logs/a.log.0" = none := by
  decide


end GoLogger
